import Mathlib

/-!
# DEMO-PANNELLO: frame compositing pipeline

A shallow embedding of `PatternAnimatedGIF.hpp` (the GIF scan-line compositor
`GIFDraw`, the rotation `openNextGif` and the tick `drawFrame`) and of
`PatternCamera.hpp` (`camJpgOutput`, `captureFrame`, `showError`, `drawFrame`),
followed by the properties proved about them.

Conventions.
* C `int` values are `Int`; counters that only ever grow from zero are `Nat`.
* `uint8_t` values are `Nat` with the wrap-around written out as `% 256`.
* Pointers into a buffer are indices into it.
* Loops whose trip count is not known on entry carry fuel; running out of fuel
  is the fault `Fault.fuel`, and the theorems show it never happens.
-/

namespace DemoPannello

/-! ## The display driver as seen by the patterns -/

/-- The panel behind `matrix`: `width()`, `height()`, the cell contents, and the list of
`drawPixel` calls made so far (most recent last). -/
structure Matrix where
  w : Int
  h : Int
  cells : Int → Int → Nat
  log : List (Int × Int × Nat)

/-- Embeds `matrix->drawPixel(px, y, color)`. -/
def Matrix.drawPixel (m : Matrix) (px y : Int) (color : Nat) : Matrix :=
  { m with
    cells := fun cx cy => if cx = px ∧ cy = y then color else m.cells cx cy
    log := m.log ++ [(px, y, color)] }

/-- Embeds `matrix->fillScreen(color)`. -/
def Matrix.fillScreen (m : Matrix) (color : Nat) : Matrix :=
  { m with cells := fun _ _ => color }

/-! ## `GIFDraw` -/

/-- What can go wrong in a run of the embedded code. -/
inductive Fault where
  /-- a loop ran out of fuel -/
  | fuel
  /-- a store into `usTemp` at an index that is not below 320 -/
  | scratch
  /-- a load from `usTemp` of an entry not stored during the current run -/
  | stale
  /-- a load from the scan-line buffer at an index that is not below `pDraw->iWidth` -/
  | pixels
  deriving DecidableEq, Repr

/-- The fields of the decoder's `GIFDRAW` record that `GIFDraw` uses. -/
structure GIFDRAW where
  iY : Int
  y : Int
  iWidth : Int
  pPixels : List Nat
  pPalette : Nat → Nat
  ucTransparent : Nat
  ucHasTransparency : Nat
  ucDisposalMethod : Nat
  ucBackground : Nat

/-- Load `s[i]` from the scan-line buffer. -/
def readPix (p : GIFDRAW) (i : Nat) : Except Fault Nat :=
  if (i : Int) < p.iWidth then .ok (p.pPixels.getD i 0) else .error .pixels

/-- Lines 95-99: `for (x=0; x<iWidth; x++) if (s[x] == ucTransparent) s[x] = ucBackground;`
with `n` iterations left, `x` the loop variable and `pix` the buffer so far. -/
def disposeLoop (t bg : Nat) : Nat → Nat → List Nat → List Nat
  | 0, _, pix => pix
  | n + 1, x, pix =>
    if pix.getD x 0 = t then disposeLoop t bg n (x + 1) (pix.set x bg)
    else disposeLoop t bg n (x + 1) pix

/-- Lines 155-163, the opaque path: `n` iterations left, `x` the loop variable, `s` the read
pointer. -/
def opaqueLoop (p : GIFDRAW) (gifOffsetX y : Int) : Nat → Nat → Nat → Matrix → Except Fault Matrix
  | 0, _, _, m => .ok m
  | n + 1, x, s, m =>
    let px : Int := (x : Int) + gifOffsetX
    if 0 ≤ px ∧ px < m.w then
      match readPix p s with
      | .ok c => opaqueLoop p gifOffsetX y n (x + 1) (s + 1) (m.drawPixel px y (p.pPalette c))
      | .error e => .error e
    else
      opaqueLoop p gifOffsetX y n (x + 1) (s + 1) m

/-- Locals of the transparent path between two runs. `lookups` counts the executions of
line 123 (`*d++ = usPalette[c]`). -/
structure Run where
  s : Nat
  x : Nat
  iCount : Nat
  usTemp : Nat → Nat
  lookups : Nat
  m : Matrix

/-- Locals of the first inner loop (lines 114-126). -/
structure Scan where
  c : Nat
  s : Nat
  d : Nat
  iCount : Nat
  usTemp : Nat → Nat
  lookups : Nat

/-- Lines 114-126: collect an opaque run into `usTemp`. -/
def scanOpaque (p : GIFDRAW) : Nat → Scan → Except Fault Scan
  | 0, st =>
    if st.c ≠ p.ucTransparent ∧ (st.s : Int) < p.iWidth then .error .fuel else .ok st
  | f + 1, st =>
    if st.c ≠ p.ucTransparent ∧ (st.s : Int) < p.iWidth then
      match readPix p st.s with
      | .ok c =>
        if c = p.ucTransparent then
          scanOpaque p f { st with c := c }
        else if st.d < 320 then
          scanOpaque p f
            { st with
              c := c
              s := st.s + 1
              usTemp := fun i => if i = st.d then p.pPalette c else st.usTemp i
              d := st.d + 1
              iCount := st.iCount + 1
              lookups := st.lookups + 1 }
        else .error .scratch
      | .error e => .error e
    else .ok st

/-- Lines 129-133: blit `usTemp[0 .. iCount)` at column `x + gifOffsetX`; `d` is the number of
entries of `usTemp` stored by the run being blitted. -/
def blitLoop (gifOffsetX y : Int) (x d : Nat) (usTemp : Nat → Nat) :
    Nat → Nat → Matrix → Except Fault Matrix
  | 0, _, m => .ok m
  | n + 1, xOffset, m =>
    let px : Int := (x : Int) + (xOffset : Int) + gifOffsetX
    if 0 ≤ px ∧ px < m.w then
      if xOffset < d then
        blitLoop gifOffsetX y x d usTemp n (xOffset + 1) (m.drawPixel px y (usTemp xOffset))
      else .error .stale
    else
      blitLoop gifOffsetX y x d usTemp n (xOffset + 1) m

/-- Lines 138-145: count a transparent run. The state is `(c, s, iCount)`. -/
def scanTransparent (p : GIFDRAW) : Nat → Nat × Nat × Nat → Except Fault (Nat × Nat × Nat)
  | 0, (c, s, iCount) =>
    if c = p.ucTransparent ∧ (s : Int) < p.iWidth then .error .fuel else .ok (c, s, iCount)
  | f + 1, (c, s, iCount) =>
    if c = p.ucTransparent ∧ (s : Int) < p.iWidth then
      match readPix p s with
      | .ok c1 =>
        if c1 = p.ucTransparent then scanTransparent p f (c1, s + 1, iCount + 1)
        else scanTransparent p f (c1, s, iCount)
      | .error e => .error e
    else .ok (c, s, iCount)

/-- Lines 110-151: the outer loop of the transparent path. -/
def transparentLoop (p : GIFDRAW) (gifOffsetX y : Int) : Nat → Run → Except Fault Run
  | 0, r => if (r.x : Int) < p.iWidth then .error .fuel else .ok r
  | f + 1, r =>
    if (r.x : Int) < p.iWidth then
      match scanOpaque p (p.iWidth.toNat + 1)
          { c := (p.ucTransparent + 255) % 256, s := r.s, d := 0, iCount := r.iCount,
            usTemp := r.usTemp, lookups := r.lookups } with
      | .error e => .error e
      | .ok sc =>
        match (if sc.iCount ≠ 0 then
                (blitLoop gifOffsetX y r.x sc.d sc.usTemp sc.iCount 0 r.m).map
                  (fun m1 => (m1, r.x + sc.iCount, 0))
               else .ok (r.m, r.x, sc.iCount)) with
        | .error e => .error e
        | .ok (m1, x1, iCount1) =>
          match scanTransparent p (p.iWidth.toNat + 1) (p.ucTransparent, sc.s, iCount1) with
          | .error e => .error e
          | .ok (_, s2, iCount2) =>
            transparentLoop p gifOffsetX y f
              { s := s2
                x := if iCount2 ≠ 0 then x1 + iCount2 else x1
                iCount := if iCount2 ≠ 0 then 0 else iCount2
                usTemp := sc.usTemp
                lookups := sc.lookups
                m := m1 }
    else .ok r

/-- What a call of `GIFDraw` leaves behind: the panel, the (possibly rewritten) `GIFDRAW`
record and the number of palette look-ups made by the transparent path. -/
structure DrawResult where
  m : Matrix
  p : GIFDRAW
  lookups : Nat

/-- Embeds `GIFDraw(pDraw)` (lines 76-165) with the globals `gifOffsetX`, `gifOffsetY` and `matrix`
passed in. `usTemp0` is the uninitialised content of the scratch line. -/
def GIFDraw (gifOffsetX gifOffsetY : Int) (usTemp0 : Nat → Nat) (m : Matrix) (p : GIFDRAW) :
    Except Fault DrawResult :=
  let iWidth : Int :=
    if p.iWidth + gifOffsetX > m.w then m.w - gifOffsetX else p.iWidth
  let y : Int := p.iY + p.y + gifOffsetY
  if y < 0 ∨ y ≥ m.h then .ok { m := m, p := p, lookups := 0 }
  else
    let p1 : GIFDRAW :=
      if p.ucDisposalMethod = 2 then
        { p with
          pPixels := disposeLoop p.ucTransparent p.ucBackground iWidth.toNat 0 p.pPixels
          ucHasTransparency := 0 }
      else p
    if p1.ucHasTransparency ≠ 0 then
      match transparentLoop p1 gifOffsetX y p1.iWidth.toNat
          { s := 0, x := 0, iCount := 0, usTemp := usTemp0, lookups := 0, m := m } with
      | .ok r => .ok { m := r.m, p := p1, lookups := r.lookups }
      | .error e => .error e
    else
      match opaqueLoop p1 gifOffsetX y p1.iWidth.toNat 0 0 m with
      | .ok m1 => .ok { m := m1, p := p1, lookups := 0 }
      | .error e => .error e

/-! ## Specification vocabulary for `GIFDraw` -/

/-- Replay a list of `drawPixel` calls. -/
def Matrix.draws (m : Matrix) (l : List (Int × Int × Nat)) : Matrix :=
  l.foldl (fun acc e => acc.drawPixel e.1 e.2.1 e.2.2) m

/-- The `drawPixel` calls a scan line owes the panel for its source columns `a .. a + n - 1`:
one per column `x` that is kept and whose panel column `x + gifOffsetX` is on the panel of
width `w`, in increasing order of `x`. -/
def lineWrites (p : GIFDRAW) (gifOffsetX y w : Int) (keep : Nat → Bool) (a n : Nat) :
    List (Int × Int × Nat) :=
  (List.range' a n).filterMap fun x =>
    if keep x = true ∧ 0 ≤ (x : Int) + gifOffsetX ∧ (x : Int) + gifOffsetX < w then
      some ((x : Int) + gifOffsetX, y, p.pPalette (p.pPixels.getD x 0))
    else none

/-- The number of entries among `pix[a .. a + n - 1]` equal to `t`. -/
def countEq (pix : List Nat) (t : Nat) (a n : Nat) : Nat :=
  ((List.range' a n).filter fun x => pix.getD x 0 = t).length

/-- The scan line with every pixel equal to the transparent index replaced by the background
index. -/
def restoredPixels (p : GIFDRAW) : List Nat :=
  p.pPixels.map fun c => if c = p.ucTransparent then p.ucBackground else c

/-- Whether source column `i` of the scan line is opaque (differs from the transparent index). -/
def opaqueAt (p : GIFDRAW) (i : Nat) : Bool :=
  decide (p.pPixels.getD i 0 ≠ p.ucTransparent)

/-! ## Concrete inputs -/

/-- A 4 x 2 panel, all cells 0. -/
def panel4x2 : Matrix := { w := 4, h := 2, cells := fun _ _ => 0, log := [] }

/-- A six-pixel scan line with palette `c ↦ 100 + c`, transparent index 9, background 7. -/
def line6 (flag disposal : Nat) : GIFDRAW :=
  { iY := 0, y := 0, iWidth := 6, pPixels := [1, 2, 9, 9, 3, 4], pPalette := (fun c => 100 + c),
    ucTransparent := 9, ucHasTransparency := flag, ucDisposalMethod := disposal,
    ucBackground := 7 }

/-! ## The GIF player: `scanGifFiles`, `start`, `stop`, `openNextGif`, `drawFrame` -/

/-- Calls made on the decoder `gif` and on the panel by the player, in order. -/
inductive GifEvent where
  /-- Call `gif.close()` on the session that had `path` open -/
  | close (path : String)
  /-- Call `gif.open(pathBuf, ...)` for `gifFiles[index]`, with its outcome -/
  | openTry (index : Nat) (pathBuf : String) (ok : Bool)
  /-- Call `matrix->fillScreen(0)` -/
  | clear
  /-- Call `gif.playFrame(false, &frameDelay)` -/
  | play
  /-- Call `gif.reset()` -/
  | reset
  deriving DecidableEq, Repr

/-- The file-scope variables of `PatternAnimatedGIF.hpp` and the panel. `session` (the path
the decoder has open) and `events` record what happened; the code does not read them. -/
structure Player where
  gifOpen : Bool
  gifStartTime : Nat
  gifOffsetX : Int
  gifOffsetY : Int
  gifFiles : List String
  currentGifIndex : Nat
  gifFilesScanned : Bool
  matrix : Matrix
  session : String
  events : List GifEvent

/-- Embeds `GIF_PLAY_TIME`. -/
def GIF_PLAY_TIME : Int := 8000

/-- What lies outside the player during one call: the asset store, the decoder's answers and
the clock. `gifOpenResult path` is the canvas size when `gif.open` succeeds on `path`;
`millisOpen1`, `millisCheck`, `millisOpen2` are the values of `millis()` at line 264 (call of
line 292 or of `start`), at line 297 and at line 264 (call of line 298); `playFrame` and
`frameDelay` are what `gif.playFrame` returns and stores; `paint` is the effect on the panel
of the `GIFDraw` calls it makes, given the centering offsets. -/
structure GifEnv where
  dir : String → Option (List (String × Bool))
  gifOpenResult : String → Option (Int × Int)
  millisOpen1 : Nat
  millisCheck : Nat
  millisOpen2 : Nat
  playFrame : Int
  frameDelay : Int
  paint : Int → Int → Matrix → Matrix

/-- Embeds `s.endsWith(suffix)` of the Arduino `String`. -/
def endsWith (s suffix : String) : Bool := suffix.data.isSuffixOf s.data

/-- Embeds `s.startsWith(pre)` of the Arduino `String`. -/
def startsWith (s pre : String) : Bool := pre.data.isPrefixOf s.data

/-- Embeds `s.toCharArray(buf, bufsize)`: the first `bufsize - 1` characters of `s`. -/
def toCharArray (s : String) (bufsize : Nat) : String := ⟨s.data.take (bufsize - 1)⟩

/-- Lines 181-204 of `scanGifFiles`: the entries of the directory, each a name and whether it
is a directory. -/
def scanEntries (dirname : String) : List (String × Bool) → List String → List String
  | [], acc => acc
  | (filename, isDirectory) :: rest, acc =>
    if !isDirectory then
      if endsWith filename ".gif" || endsWith filename ".GIF" then
        let fullPath :=
          if startsWith filename "/" then filename
          else (if !endsWith dirname "/" then dirname ++ "/" else dirname) ++ filename
        scanEntries dirname rest (acc ++ [fullPath])
      else scanEntries dirname rest acc
    else scanEntries dirname rest acc

/-- Embeds `scanGifFiles(dirname)` (lines 168-209): the new content of `gifFiles`. -/
def scanGifFiles (env : GifEnv) (dirname : String) : List String :=
  match env.dir dirname with
  | none => []
  | some entries => scanEntries dirname entries []

/-- Embeds `openNextGif()` (lines 243-282); `now` is the value of `millis()` at line 264. -/
def openNextGif (env : GifEnv) (now : Nat) (p : Player) : Player :=
  if p.gifFiles.length = 0 then p
  else
    let p1 : Player :=
      if p.gifOpen then { p with gifOpen := false, events := p.events ++ [.close p.session] }
      else p
    let gifPath := p1.gifFiles.getD p1.currentGifIndex ""
    let pathBuf := toCharArray gifPath 256
    let p2 : Player :=
      match env.gifOpenResult pathBuf with
      | some (gifW, gifH) =>
        { p1 with
          gifOpen := true
          gifStartTime := now
          gifOffsetX := (p1.matrix.w - gifW).tdiv 2
          gifOffsetY := (p1.matrix.h - gifH).tdiv 2
          matrix := p1.matrix.fillScreen 0
          session := pathBuf
          events := p1.events ++ [.openTry p1.currentGifIndex pathBuf true, .clear] }
      | none =>
        { p1 with events := p1.events ++ [.openTry p1.currentGifIndex pathBuf false] }
    { p2 with currentGifIndex := (p2.currentGifIndex + 1) % p2.gifFiles.length }

/-- Embeds `PatternAnimatedGIF::start()` (lines 220-234). -/
def start (env : GifEnv) (p : Player) : Player :=
  let p1 : Player :=
    if !p.gifFilesScanned then
      let found := scanGifFiles env "/gifs"
      let found := if found.length = 0 then scanGifFiles env "/" else found
      { p with gifFiles := found, gifFilesScanned := true }
    else p
  openNextGif env env.millisOpen1 p1

/-- Embeds `PatternAnimatedGIF::stop()` (lines 236-241). -/
def stop (p : Player) : Player :=
  if p.gifOpen then { p with gifOpen := false, events := p.events ++ [.close p.session] }
  else p

/-- Lines 302-310 of `drawFrame`: play one frame and return the delay. -/
def playOne (env : GifEnv) (p : Player) : Player × Nat :=
  let p1 : Player :=
    { p with
      matrix := env.paint p.gifOffsetX p.gifOffsetY p.matrix
      events := p.events ++ [.play] }
  let p2 : Player :=
    if env.playFrame = 0 then { p1 with events := p1.events ++ [.reset] } else p1
  (p2, if env.frameDelay > 10 then env.frameDelay.toNat else 10)

/-- Embeds `PatternAnimatedGIF::drawFrame()` (lines 284-311): the new state and the returned delay.
The difference `millis() - gifStartTime` is taken in `unsigned long` (32 bits). -/
def drawFrame (env : GifEnv) (p : Player) : Player × Nat :=
  if p.gifFiles.length = 0 then
    ({ p with matrix := p.matrix.fillScreen 0, events := p.events ++ [.clear] }, 1000)
  else
    let p1 : Player := if !p.gifOpen then openNextGif env env.millisOpen1 p else p
    if !p1.gifOpen then (p1, 100)
    else
      let p2 : Player :=
        if ((env.millisCheck : Int) - (p1.gifStartTime : Int)) % 4294967296 > GIF_PLAY_TIME then
          openNextGif env env.millisOpen2 p1
        else p1
      if !p2.gifOpen then (p2, 100)
      else playOne env p2

/-- The `gif.open` attempts among a list of events, as asset indices. -/
def openAttempts : List GifEvent → List Nat
  | [] => []
  | .openTry index _ _ :: rest => index :: openAttempts rest
  | _ :: rest => openAttempts rest

/-- Run `openNextGif` once for each outside world of the list, in order. -/
def openNextGifs : List GifEnv → Player → Player
  | [], p => p
  | env :: rest, p => openNextGifs rest (openNextGif env env.millisOpen1 p)

/-- The player before `start`: nothing scanned, nothing open, cursor 0. -/
def initialPlayer (m : Matrix) : Player :=
  { gifOpen := false, gifStartTime := 0, gifOffsetX := 0, gifOffsetY := 0, gifFiles := [],
    currentGifIndex := 0, gifFilesScanned := false, matrix := m, session := "", events := [] }

/-- An outside world in which `/gifs` holds `a.gif` and `b.gif`, every `gif.open` succeeds
with a 4 x 2 canvas, and the clock reads `now` throughout. -/
def twoGifsEnv (now : Nat) : GifEnv :=
  { dir := fun d => if d = "/gifs" then some [("a.gif", false), ("b.gif", false)] else none
    gifOpenResult := fun _ => some (4, 2)
    millisOpen1 := now, millisCheck := now, millisOpen2 := now
    playFrame := 1, frameDelay := 40, paint := fun _ _ m => m }

/-- A player holding the assets `/gifs/a.gif` and `/gifs/b.gif`, cursor 0, nothing open. -/
def twoGifsPlayer : Player :=
  { initialPlayer panel4x2 with
    gifFiles := ["/gifs/a.gif", "/gifs/b.gif"], gifFilesScanned := true }

/-- The player of the scenario: `/gifs/a.gif` and `/gifs/b.gif`, with `a.gif` opened at
time 1000 by a first call of `openNextGif`. -/
def playingA : Player := openNextGif (twoGifsEnv 1000) 1000 twoGifsPlayer

/-! ## The camera pattern: `camJpgOutput` -/

/-- A `CRGB` colour. -/
structure CRGB where
  r : Nat
  g : Nat
  b : Nat
  deriving DecidableEq, Repr

/-- Embeds `CRGB::Black`. -/
def CRGB.Black : CRGB := { r := 0, g := 0, b := 0 }

/-- The buffer `effects.leds`: its cells and the list of stores made into it so far (most
recent last). -/
structure Leds where
  cells : Nat → CRGB
  log : List (Nat × CRGB)

/-- Embeds `effects.leds[i] = c`. -/
def Leds.store (l : Leds) (i : Nat) (c : CRGB) : Leds :=
  { cells := fun k => if k = i then c else l.cells k, log := l.log ++ [(i, c)] }

/-- Lines 24-26: unpack a 16-bit colour into `CRGB(r, g, b)`, each channel a `uint8_t`. -/
def unpack565 (color : Nat) : CRGB :=
  { r := (((color >>> 11) &&& 0x1F) <<< 3) % 256
    g := (((color >>> 5) &&& 0x3F) <<< 2) % 256
    b := ((color &&& 0x1F) <<< 3) % 256 }

/-- One block handed to the output callback: `x`, `y`, `w`, `h` and the bitmap. -/
structure Block where
  x : Int
  y : Int
  w : Nat
  h : Nat
  bitmap : List Nat

/-- Lines 17-28: the body of the inner loop of `camJpgOutput` for the pixel `(i, j)` of the
block. -/
def camPixel (VPANEL_W VPANEL_H : Int) (blk : Block) (j i : Nat) (l : Leds) : Leds :=
  let srcX : Int := blk.x + i
  let srcY : Int := blk.y + j
  let dstX : Int := (srcX * VPANEL_W).tdiv 320
  let dstY : Int := (srcY * VPANEL_H).tdiv 240
  if dstX < VPANEL_W ∧ dstY < VPANEL_H ∧ dstX ≥ 0 ∧ dstY ≥ 0 then
    l.store (dstY * VPANEL_W + dstX).toNat (unpack565 (blk.bitmap.getD (j * blk.w + i) 0))
  else l

/-- Lines 16-29: `for (int i = 0; i < w; i++)`, with `n` iterations left. -/
def camRow (VPANEL_W VPANEL_H : Int) (blk : Block) (j : Nat) : Nat → Nat → Leds → Leds
  | 0, _, l => l
  | n + 1, i, l => camRow VPANEL_W VPANEL_H blk j n (i + 1) (camPixel VPANEL_W VPANEL_H blk j i l)

/-- Lines 15-30: `for (int j = 0; j < h; j++)`, with `n` iterations left. -/
def camRows (VPANEL_W VPANEL_H : Int) (blk : Block) : Nat → Nat → Leds → Leds
  | 0, _, l => l
  | n + 1, j, l =>
    camRows VPANEL_W VPANEL_H blk n (j + 1) (camRow VPANEL_W VPANEL_H blk j blk.w 0 l)

/-- Embeds `camJpgOutput(x, y, w, h, bitmap)` (lines 11-32) with the panel size and the flag
`camDecoding` passed in: the returned value and the panel buffer. -/
def camJpgOutput (VPANEL_W VPANEL_H : Int) (camDecoding : Bool) (blk : Block) (l : Leds) :
    Bool × Leds :=
  if !camDecoding then (false, l)
  else (true, camRows VPANEL_W VPANEL_H blk blk.h 0 l)

/-- The panel cell of the source pixel `(sx, sy)`: `(sx * VPANEL_W / 320, sy * VPANEL_H / 240)`
with the division of C. -/
def scaled (VPANEL_W VPANEL_H : Int) (sx sy : Int) : Int × Int :=
  ((sx * VPANEL_W).tdiv 320, (sy * VPANEL_H).tdiv 240)

/-- A buffer of black cells with no store made. -/
def blackLeds : Leds := { cells := fun _ => CRGB.Black, log := [] }

/-- A 2 x 2 block at `(160, 120)`. -/
def block160 : Block := { x := 160, y := 120, w := 2, h := 2, bitmap := [0xF800, 0x07E0, 0x001F, 0xFFFF] }

/-- The store, if any, that the inner loop body of `camJpgOutput` makes for the pixel `(i, j)`
of a block. -/
def pixelStores (VPANEL_W VPANEL_H : Int) (blk : Block) (j i : Nat) : List (Nat × CRGB) :=
  if (scaled VPANEL_W VPANEL_H (blk.x + i) (blk.y + j)).1 < VPANEL_W ∧
      (scaled VPANEL_W VPANEL_H (blk.x + i) (blk.y + j)).2 < VPANEL_H ∧
      (scaled VPANEL_W VPANEL_H (blk.x + i) (blk.y + j)).1 ≥ 0 ∧
      (scaled VPANEL_W VPANEL_H (blk.x + i) (blk.y + j)).2 ≥ 0 then
    [(((scaled VPANEL_W VPANEL_H (blk.x + i) (blk.y + j)).2 * VPANEL_W +
        (scaled VPANEL_W VPANEL_H (blk.x + i) (blk.y + j)).1).toNat,
      unpack565 (blk.bitmap.getD (j * blk.w + i) 0))]
  else []

/-! ## The camera pattern: `captureFrame`, `showError`, `drawFrame` -/

/-- Calls made by the camera pattern on the network client, the decoder and the display, in
order; `capture` records the value returned by `captureFrame` to `drawFrame`. -/
inductive CamEvent where
  /-- Call `client.connect("192.168.1.100", 80)` with its outcome -/
  | connect (ok : Bool)
  /-- the four `client.println` of lines 97-100 -/
  | request
  /-- Call `client.stop()` -/
  | stop
  /-- Call `TJpgDec.drawJpg(0, 0, jpegBuf, len)` with its result code -/
  | decode (len : Nat) (res : Nat)
  /-- Return of `captureFrame()` to line 197 with the value `ok` -/
  | capture (ok : Bool)
  /-- Call `showError()` -/
  | showError
  /-- Call `effects.ShowFrame()` -/
  | showFrame
  deriving DecidableEq, Repr

/-- The members of `PatternCamera`, the flag `camDecoding`, the static `offset` of `showError`
and the buffer `effects.leds`. `jpegBufNull` says whether `jpegBuf` is `nullptr`, `jpegBuf` is
the content of the buffer; `stored` (the number of bytes stored into the buffer so far) and
`events` record what happened, the code does not read them. -/
structure Camera where
  lastFrame : Nat
  frameInterval : Int
  jpegBufNull : Bool
  jpegBuf : Nat → Nat
  jpegBufSize : Nat
  initialized : Bool
  consecutiveErrors : Int
  hasValidFrame : Bool
  camDecoding : Bool
  offset : Nat
  leds : Leds
  stored : Nat
  events : List CamEvent

/-- What lies outside the camera pattern during one tick. `millisTick`, `millisWait` and
`millisRead` are the values of `millis()` at lines 192, 103 and 138; `waitPolls` gives, for each
turn of the loop of line 104, the value of `client.available()` and the value `millis()` would
have at line 105; `headerLines` are the lines `readStringUntil` returns while
`client.available()` is not zero; `reads` gives, for each turn of the loop of line 140, the value
of `millis()` and the bytes the client holds; `decode buf len` is what `TJpgDec.drawJpg` does
with the payload: the blocks it hands to the callback and its result code (`JDR_OK` is 0). -/
structure CamEnv where
  millisTick : Nat
  connectOk : Bool
  millisWait : Nat
  waitPolls : List (Nat × Nat)
  headerLines : List String
  millisRead : Nat
  reads : List (Nat × List Nat)
  decode : (Nat → Nat) → Nat → List Block × Nat

/-- Embeds `isspace` of C. -/
def isSpace (c : Char) : Bool :=
  c = ' ' || c = '\t' || c = '\n' || c = '\r' || c.toNat = 11 || c.toNat = 12

/-- Embeds `line.trim()` of the Arduino `String`. -/
def trim (s : String) : String :=
  ⟨((s.data.dropWhile isSpace).reverse.dropWhile isSpace).reverse⟩

/-- The value of a run of decimal digits. -/
def digitsValue (cs : List Char) : Nat :=
  cs.foldl (fun acc c => acc * 10 + (c.toNat - 48)) 0

/-- Embeds `atol` of C on text that does not overflow a `long`: leading white space, an optional sign,
then the leading decimal digits. -/
def atol (cs : List Char) : Int :=
  match cs.dropWhile isSpace with
  | '-' :: ds => - (digitsValue (ds.takeWhile Char.isDigit) : Int)
  | '+' :: ds => (digitsValue (ds.takeWhile Char.isDigit) : Int)
  | ds => (digitsValue (ds.takeWhile Char.isDigit) : Int)

/-- Embeds `line.substring(15).toInt()` stored into the `size_t` (32 bits) `contentLength`. -/
def lengthField (line : String) : Nat :=
  (atol (line.data.drop 15) % 4294967296).toNat

/-- Lines 104-111: wait for the first byte of the response. `true` when a byte is available,
`false` on the time-out. -/
def waitResponse (timeout : Nat) : List (Nat × Nat) → Except Fault Bool
  | [] => .error .fuel
  | (available, now) :: rest =>
    if available = 0 then
      if now > timeout then .ok false else waitResponse timeout rest
    else .ok true

/-- Lines 115-127: read the header, `contentLength` being the value found so far. -/
def readHeader : List String → Nat → Nat
  | [], contentLength => contentLength
  | raw :: rest, contentLength =>
    let line := trim raw
    let contentLength1 :=
      if startsWith line "Content-Length:" then lengthField line else contentLength
    if line.data.length = 0 then contentLength1 else readHeader rest contentLength1

/-- Lines 140-147: read the payload. The state is `bytesRead` and the content of `jpegBuf`. -/
def readPayload (contentLength timeout : Nat) :
    List (Nat × List Nat) → Nat → (Nat → Nat) → Except Fault (Nat × (Nat → Nat))
  | [], bytesRead, buf =>
    if bytesRead < contentLength then .error .fuel else .ok (bytesRead, buf)
  | (now, held) :: rest, bytesRead, buf =>
    if bytesRead < contentLength ∧ now < timeout then
      if held.length ≠ 0 then
        let toRead := min held.length (contentLength - bytesRead)
        let data := held.take toRead
        readPayload contentLength timeout rest (bytesRead + data.length)
          (fun k => if bytesRead ≤ k ∧ k < bytesRead + data.length then data.getD (k - bytesRead) 0
            else buf k)
      else readPayload contentLength timeout rest bytesRead buf
    else .ok (bytesRead, buf)

/-- Lines 162-164: `for (int i = 0; i < VPANEL_W * VPANEL_H; i++) effects.leds[i] = CRGB::Black;`
with `n` iterations left. -/
def clearLeds : Nat → Nat → Leds → Leds
  | 0, _, l => l
  | n + 1, i, l => clearLeds n (i + 1) (l.store i CRGB.Black)

/-- Embeds `TJpgDec.drawJpg` handing the blocks to `camJpgOutput` one after the other, stopping when the
callback returns `false`. -/
def outputBlocks (VPANEL_W VPANEL_H : Nat) (camDecoding : Bool) : List Block → Leds → Leds
  | [], l => l
  | blk :: rest, l =>
    let r := camJpgOutput VPANEL_W VPANEL_H camDecoding blk l
    if r.1 then outputBlocks VPANEL_W VPANEL_H camDecoding rest r.2 else r.2

namespace PatternCamera

/-- Embeds `PatternCamera::captureFrame()` (lines 84-175): the returned value and the new state. -/
def captureFrame (VPANEL_W VPANEL_H : Nat) (env : CamEnv) (c : Camera) :
    Except Fault (Bool × Camera) :=
  if c.jpegBufNull ∨ ¬ c.initialized then .ok (false, c)
  else if ¬ env.connectOk then .ok (false, { c with events := c.events ++ [.connect false] })
  else
    let c1 : Camera := { c with events := c.events ++ [.connect true, .request] }
    match waitResponse ((env.millisWait + 5000) % 4294967296) env.waitPolls with
    | .error e => .error e
    | .ok false => .ok (false, { c1 with events := c1.events ++ [.stop] })
    | .ok true =>
      let contentLength := readHeader env.headerLines 0
      if contentLength = 0 ∨ contentLength > c1.jpegBufSize then
        .ok (false, { c1 with events := c1.events ++ [.stop] })
      else
        match readPayload contentLength ((env.millisRead + 5000) % 4294967296) env.reads 0
            c1.jpegBuf with
        | .error e => .error e
        | .ok (bytesRead, buf) =>
          let c2 : Camera :=
            { c1 with jpegBuf := buf, stored := c1.stored + bytesRead,
                      events := c1.events ++ [.stop] }
          if bytesRead < contentLength then .ok (false, c2)
          else
            let cleared := clearLeds (VPANEL_W * VPANEL_H) 0 c2.leds
            let out := env.decode c2.jpegBuf bytesRead
            let c3 : Camera :=
              { c2 with
                camDecoding := false
                leds := outputBlocks VPANEL_W VPANEL_H true out.1 cleared
                events := c2.events ++ [.decode bytesRead out.2] }
            if out.2 ≠ 0 then .ok (false, c3) else .ok (true, c3)

/-- Lines 181-187: `for (int x = 0; x < VPANEL_W; x++)` of `showError`, with `n` iterations
left. -/
def errorRow (VPANEL_W offset y : Nat) : Nat → Nat → Leds → Leds
  | 0, _, l => l
  | n + 1, x, l =>
    errorRow VPANEL_W offset y n (x + 1)
      (if (x + y + offset) % 8 < 4 then l.store (y * VPANEL_W + x) { r := 50, g := 0, b := 0 }
       else l.store (y * VPANEL_W + x) CRGB.Black)

/-- Lines 180-188: `for (int y = 0; y < VPANEL_H; y++)` of `showError`, with `n` iterations
left. -/
def errorRows (VPANEL_W offset : Nat) : Nat → Nat → Leds → Leds
  | 0, _, l => l
  | n + 1, y, l => errorRows VPANEL_W offset n (y + 1) (errorRow VPANEL_W offset y VPANEL_W 0 l)

/-- Embeds `PatternCamera::showError()` (lines 177-189). -/
def showError (VPANEL_W VPANEL_H : Nat) (c : Camera) : Camera :=
  let offset := (c.offset + 1) % 8
  { c with
    offset := offset
    leds := errorRows VPANEL_W offset VPANEL_H 0 c.leds
    events := c.events ++ [.showError] }

/-- Lines 197-207 of `drawFrame`: what follows the return of `captureFrame`. -/
def afterCapture (VPANEL_W VPANEL_H : Nat) (ok : Bool) (c : Camera) : Camera :=
  let c1 : Camera := { c with events := c.events ++ [.capture ok] }
  if ok then { c1 with consecutiveErrors := 0, hasValidFrame := true }
  else
    let c2 : Camera := { c1 with consecutiveErrors := c1.consecutiveErrors + 1 }
    if c2.consecutiveErrors > 5 ∨ ¬ c2.hasValidFrame then showError VPANEL_W VPANEL_H c2 else c2

/-- Embeds `PatternCamera::drawFrame()` (lines 191-212): the returned value and the new state. The
difference `now - lastFrame` is taken in `unsigned long` (32 bits), and `frameInterval` is
converted to `unsigned long`. -/
def drawFrame (VPANEL_W VPANEL_H : Nat) (env : CamEnv) (c : Camera) :
    Except Fault (Nat × Camera) :=
  let now := env.millisTick
  if ((now : Int) - (c.lastFrame : Int)) % 4294967296 ≥ c.frameInterval % 4294967296 then
    match captureFrame VPANEL_W VPANEL_H env { c with lastFrame := now } with
    | .error e => .error e
    | .ok (ok, c1) =>
      let c2 := afterCapture VPANEL_W VPANEL_H ok c1
      .ok (0, { c2 with events := c2.events ++ [.showFrame] })
  else .ok (0, { c with events := c.events ++ [.showFrame] })

/-- Run `drawFrame` once for each outside world of the list, in order. -/
def drawFrames (VPANEL_W VPANEL_H : Nat) : List CamEnv → Camera → Except Fault Camera
  | [], c => .ok c
  | env :: rest, c =>
    match drawFrame VPANEL_W VPANEL_H env c with
    | .error e => .error e
    | .ok (_, c1) => drawFrames VPANEL_W VPANEL_H rest c1

end PatternCamera

/-- The captures and error patterns among a list of events: `some ok` for a return of
`captureFrame`, `none` for a call of `showError`. -/
def captureTrace : List CamEvent → List (Option Bool)
  | [] => []
  | .capture ok :: rest => some ok :: captureTrace rest
  | .showError :: rest => none :: captureTrace rest
  | _ :: rest => captureTrace rest

/-- A camera pattern after `start()` that shows a valid frame (every cell grey), with a buffer of
60000 bytes and no failure counted. -/
def showingFrame : Camera :=
  { lastFrame := 0, frameInterval := 150, jpegBufNull := false, jpegBuf := fun _ => 0,
    jpegBufSize := 60000, initialized := true, consecutiveErrors := 0, hasValidFrame := true,
    camDecoding := false, offset := 0,
    leds := { cells := fun _ => { r := 9, g := 9, b := 9 }, log := [] },
    stored := 0, events := [] }

/-- An outside world at time `now` in which the camera answers with the given header lines, the
client holds `[1, 2, 3]`, then nothing, then `[4, 5, 6, 7]`, and the decoder hands no block to
the callback and returns `res`. -/
def answering (now : Nat) (header : List String) (res : Nat) : CamEnv :=
  { millisTick := now, connectOk := true, millisWait := now,
    waitPolls := [(0, now + 10), (17, now + 20)], headerLines := header, millisRead := now + 30,
    reads := [(now + 31, [1, 2, 3]), (now + 32, []), (now + 33, [4, 5, 6, 7])],
    decode := fun _ _ => ([], res) }

/-- A response header announcing `Content-Length: 5`. -/
def header5 : List String :=
  ["HTTP/1.1 200 OK\r", "Content-Type: image/jpeg\r", "Content-Length: 5\r", "\r"]

/-- An outside world at time `now` in which the camera cannot be reached. -/
def unreachable (now : Nat) : CamEnv :=
  { millisTick := now, connectOk := false, millisWait := now, waitPolls := [], headerLines := [],
    millisRead := now, reads := [], decode := fun _ _ => ([], 0) }

/-- The trace of `n` failed captures in a row, begun with the failure counter at `k` and a valid
frame on the panel: each failure, followed by the error pattern once the counter exceeds 5. -/
def failureTrace (k : Int) : Nat → List (Option Bool)
  | 0 => []
  | n + 1 => some false :: ((if k + 1 > 5 then [none] else []) ++ failureTrace (k + 1) n)

/-- The trace of captures and error patterns after a run of ticks, when the run ends. -/
def runTrace (VPANEL_W VPANEL_H : Nat) (envs : List CamEnv) (c : Camera) :
    Option (List (Option Bool)) :=
  match PatternCamera.drawFrames VPANEL_W VPANEL_H envs c with
  | .ok c1 => some (captureTrace c1.events)
  | .error _ => none

/-- Six ticks, one second apart, in each of which the camera cannot be reached. -/
def sixUnreachable : List CamEnv :=
  [unreachable 1000, unreachable 2000, unreachable 3000, unreachable 4000, unreachable 5000,
    unreachable 6000]

/-- The effect of one event on the number of sessions the decoder holds open: a successful
`gif.open` adds one, `gif.close()` removes one. -/
def sessionStep (n : Nat) : GifEvent → Nat
  | .close _ => n - 1
  | .openTry _ _ true => n + 1
  | _ => n

/-- The number of sessions left open by a list of events. -/
def sessionsOpen (events : List GifEvent) : Nat := events.foldl sessionStep 0

/-- An outside world like `twoGifsEnv` at time `now`, in which every `gif.open` succeeds with a
`w` x `h` canvas. -/
def canvasEnv (w h : Int) (now : Nat) : GifEnv :=
  { twoGifsEnv now with gifOpenResult := fun _ => some (w, h) }

/-- An outside world like `twoGifsEnv` at time `now`, in which every `gif.open` fails. -/
def brokenEnv (now : Nat) : GifEnv :=
  { twoGifsEnv now with gifOpenResult := fun _ => none }

/-- The colour of the error pattern at the cell `(x, y)` for the phase `offset`. -/
def errorColor (offset x y : Nat) : CRGB :=
  if (x + y + offset) % 8 < 4 then { r := 50, g := 0, b := 0 } else CRGB.Black

/-- A scan line of 321 opaque pixels (all 1, transparent index 9) with the transparency flag
set. -/
def line321 : GIFDRAW :=
  { iY := 0, y := 0, iWidth := 321, pPixels := List.replicate 321 1, pPalette := (fun c => c),
    ucTransparent := 9, ucHasTransparency := 1, ucDisposalMethod := 0, ucBackground := 0 }

/-- The calls the pattern host can make on the GIF player, each with the outside world it
meets. -/
inductive GifCall where
  /-- Call `start()` -/
  | start (env : GifEnv)
  /-- Call `stop()` -/
  | stop
  /-- Call `openNextGif()`, `millis()` returning `now` -/
  | openNextGif (env : GifEnv) (now : Nat)
  /-- Call `drawFrame()` -/
  | drawFrame (env : GifEnv)

/-- The state after one call. -/
def applyCall : GifCall → Player → Player
  | .start env, p => start env p
  | .stop, p => stop p
  | .openNextGif env now, p => openNextGif env now p
  | .drawFrame env, p => (drawFrame env p).1

/-- The state after a sequence of calls, made in order. -/
def applyCalls : List GifCall → Player → Player
  | [], p => p
  | call :: rest, p => applyCalls rest (applyCall call p)

/-- The cursor invariant: the list is empty until the scan, the cursor is 0 while the list is
empty, and it is an index of the list otherwise. -/
def cursorInv (p : Player) : Prop :=
  (p.gifFilesScanned = false → p.gifFiles = []) ∧
  (p.gifFiles = [] → p.currentGifIndex = 0) ∧
  (p.gifFiles ≠ [] → p.currentGifIndex < p.gifFiles.length)

/-- What a call that does not scan may change of the cursor state: the list and the scan flag
are kept, and the cursor is kept or becomes an index of the non-empty list. -/
def keepsAssets (p q : Player) : Prop :=
  q.gifFiles = p.gifFiles ∧ q.gifFilesScanned = p.gifFilesScanned ∧
  (q.currentGifIndex = p.currentGifIndex ∨
    (p.gifFiles ≠ [] ∧ q.currentGifIndex < p.gifFiles.length))

/-! # Properties -/

/-! ## Lemmas: replaying writes -/

theorem Matrix.draws_nil (m : Matrix) : m.draws [] = m := rfl

theorem Matrix.draws_cons (m : Matrix) (e : Int × Int × Nat) (l : List (Int × Int × Nat)) :
    m.draws (e :: l) = (m.drawPixel e.1 e.2.1 e.2.2).draws l := rfl

theorem Matrix.draws_append (m : Matrix) (l₁ l₂ : List (Int × Int × Nat)) :
    m.draws (l₁ ++ l₂) = (m.draws l₁).draws l₂ := by
  simp [Matrix.draws, List.foldl_append]

theorem Matrix.draws_w (m : Matrix) (l : List (Int × Int × Nat)) : (m.draws l).w = m.w := by
  induction l generalizing m with
  | nil => rfl
  | cons e l ih => rw [Matrix.draws_cons, ih]; rfl

theorem Matrix.draws_h (m : Matrix) (l : List (Int × Int × Nat)) : (m.draws l).h = m.h := by
  induction l generalizing m with
  | nil => rfl
  | cons e l ih => rw [Matrix.draws_cons, ih]; rfl

theorem Matrix.draws_log (m : Matrix) (l : List (Int × Int × Nat)) :
    (m.draws l).log = m.log ++ l := by
  induction l generalizing m with
  | nil => simp [Matrix.draws_nil]
  | cons e l ih => rw [Matrix.draws_cons, ih]; simp [Matrix.drawPixel]

theorem lineWrites_zero (p : GIFDRAW) (o y w : Int) (keep : Nat → Bool) (a : Nat) :
    lineWrites p o y w keep a 0 = [] := rfl

theorem lineWrites_succ_left (p : GIFDRAW) (o y w : Int) (keep : Nat → Bool) (a n : Nat) :
    lineWrites p o y w keep a (n + 1) =
      (if keep a = true ∧ 0 ≤ (a : Int) + o ∧ (a : Int) + o < w then
        [((a : Int) + o, y, p.pPalette (p.pPixels.getD a 0))] else []) ++
        lineWrites p o y w keep (a + 1) n := by
  unfold lineWrites
  rw [List.range'_succ, List.filterMap_cons]
  split_ifs <;> simp_all

theorem lineWrites_append (p : GIFDRAW) (o y w : Int) (keep : Nat → Bool) (a n k : Nat) :
    lineWrites p o y w keep a (n + k) =
      lineWrites p o y w keep a n ++ lineWrites p o y w keep (a + n) k := by
  unfold lineWrites
  rw [← List.filterMap_append, List.range'_append_1, Nat.add_comm k n]

theorem mem_lineWrites (p : GIFDRAW) (o y w : Int) (keep : Nat → Bool) (a n : Nat)
    (e : Int × Int × Nat) :
    e ∈ lineWrites p o y w keep a n ↔
      ∃ x : Nat, a ≤ x ∧ x < a + n ∧ keep x = true ∧ 0 ≤ (x : Int) + o ∧ (x : Int) + o < w ∧
        e = ((x : Int) + o, y, p.pPalette (p.pPixels.getD x 0)) := by
  unfold lineWrites
  rw [List.mem_filterMap]
  constructor
  · rintro ⟨x, hx, he⟩
    rw [List.mem_range'_1] at hx
    split_ifs at he with hc
    · exact ⟨x, hx.1, hx.2, hc.1, hc.2.1, hc.2.2, (Option.some.inj he).symm⟩
  · rintro ⟨x, h1, h2, h3, h4, h5, he⟩
    refine ⟨x, List.mem_range'_1.mpr ⟨h1, h2⟩, ?_⟩
    rw [if_pos ⟨h3, h4, h5⟩, he]

/-- The cells after replaying the writes of a scan line. -/
theorem draws_lineWrites_cells (p : GIFDRAW) (o y : Int) (keep : Nat → Bool) (a n : Nat)
    (m : Matrix) (cx cy : Int) :
    (m.draws (lineWrites p o y m.w keep a n)).cells cx cy =
      if cy = y ∧ 0 ≤ cx ∧ cx < m.w ∧ (a : Int) ≤ cx - o ∧ cx - o < (a : Int) + n ∧
          keep (cx - o).toNat = true then
        p.pPalette (p.pPixels.getD (cx - o).toNat 0)
      else m.cells cx cy := by
  induction n with
  | zero =>
    rw [lineWrites_zero, Matrix.draws_nil, if_neg]
    intro h; omega
  | succ n ih =>
    rw [lineWrites_append p o y m.w keep a n 1, Matrix.draws_append, lineWrites_succ_left,
      lineWrites_zero, List.append_nil]
    by_cases hk : keep (a + n) = true ∧ 0 ≤ ((a + n : Nat) : Int) + o ∧ ((a + n : Nat) : Int) + o < m.w
    · rw [if_pos hk, Matrix.draws_cons, Matrix.draws_nil]
      show (if cx = ((a + n : Nat) : Int) + o ∧ cy = y then _ else _) = _
      by_cases hc : cx = ((a + n : Nat) : Int) + o ∧ cy = y
      · have h1 : (cx - o).toNat = a + n := by omega
        rw [if_pos hc, if_pos, h1]
        rw [h1]
        refine ⟨hc.2, ?_, ?_, ?_, ?_, hk.1⟩ <;> omega
      · rw [if_neg hc, ih]
        by_cases hy : cy = y
        · have hne : cx - o ≠ ((a + n : Nat) : Int) := by
            intro h; exact hc ⟨by omega, hy⟩
          have e1 : (cx - o < (a : Int) + n) ↔ (cx - o < (a : Int) + ((n + 1 : Nat) : Int)) := by
            constructor <;> intro h <;> push_cast at * <;> omega
          simp only [e1]
        · simp [hy]
    · rw [if_neg hk, Matrix.draws_nil, ih]
      by_cases hin : cy = y ∧ 0 ≤ cx ∧ cx < m.w ∧ (a : Int) ≤ cx - o
      · by_cases hlast : cx - o = ((a + n : Nat) : Int)
        · have h1 : (cx - o).toNat = a + n := by omega
          have hkf : ¬ keep (a + n) = true := by
            intro hkt; apply hk; refine ⟨hkt, ?_, ?_⟩ <;> omega
          rw [if_neg, if_neg]
          · rw [h1]; tauto
          · intro h; push_cast at hlast; omega
        · have e1 : (cx - o < (a : Int) + n) ↔ (cx - o < (a : Int) + ((n + 1 : Nat) : Int)) := by
            constructor <;> intro h <;> push_cast at * <;> omega
          simp only [e1]
      · rw [if_neg, if_neg]
        · intro h; exact hin ⟨h.1, h.2.1, h.2.2.1, h.2.2.2.1⟩
        · intro h; exact hin ⟨h.1, h.2.1, h.2.2.1, h.2.2.2.1⟩

/-! ## Lemmas: the opaque path -/

theorem opaqueLoop_eq (p : GIFDRAW) (o y : Int) (n : Nat) :
    ∀ (x : Nat) (m : Matrix), ((x + n : Nat) : Int) ≤ p.iWidth ∨ n = 0 →
      opaqueLoop p o y n x x m = .ok (m.draws (lineWrites p o y m.w (fun _ => true) x n)) := by
  induction n with
  | zero => intro x m _; rfl
  | succ n ih =>
    intro x m hb
    have hb1 : ((x + (n + 1) : Nat) : Int) ≤ p.iWidth := by
      rcases hb with h | h
      · exact h
      · omega
    have hx : (x : Int) < p.iWidth := by omega
    have hb2 : ((x + 1 + n : Nat) : Int) ≤ p.iWidth ∨ n = 0 := by left; omega
    rw [lineWrites_succ_left]
    unfold opaqueLoop
    by_cases hc : 0 ≤ (x : Int) + o ∧ (x : Int) + o < m.w
    · simp only [hc, and_self, if_true, readPix, hx, true_and]
      rw [ih (x + 1) _ hb2]
      rfl
    · simp only [hc, if_false, true_and, List.nil_append]
      rw [ih (x + 1) m hb2]

theorem opaqueLoop_full (p : GIFDRAW) (o y : Int) (m : Matrix) :
    opaqueLoop p o y p.iWidth.toNat 0 0 m =
      .ok (m.draws (lineWrites p o y m.w (fun _ => true) 0 p.iWidth.toNat)) := by
  apply opaqueLoop_eq
  by_cases h : 0 ≤ p.iWidth
  · left; omega
  · right; omega

/-- The whole of `GIFDraw` on a visible line that takes the opaque path. -/
theorem GIFDraw_opaque_eq (o oy : Int) (u0 : Nat → Nat) (m : Matrix) (p : GIFDRAW)
    (hT : p.ucHasTransparency = 0) (hD : p.ucDisposalMethod ≠ 2)
    (hrow : 0 ≤ p.iY + p.y + oy ∧ p.iY + p.y + oy < m.h) :
    GIFDraw o oy u0 m p =
      .ok { m := m.draws (lineWrites p o (p.iY + p.y + oy) m.w (fun _ => true) 0 p.iWidth.toNat)
            p := p
            lookups := 0 } := by
  have hv : ¬ (p.iY + p.y + oy < 0 ∨ p.iY + p.y + oy ≥ m.h) := by omega
  unfold GIFDraw
  simp only [hv, if_false, hD, hT, ne_eq, not_true_eq_false, opaqueLoop_full]

/-- The cells after replaying all the writes of an opaque scan line. -/
theorem draws_opaque_cells (p : GIFDRAW) (o y : Int) (m : Matrix) (cx cy : Int) :
    (m.draws (lineWrites p o y m.w (fun _ => true) 0 p.iWidth.toNat)).cells cx cy =
      if cy = y ∧ 0 ≤ cx ∧ cx < m.w ∧ 0 ≤ cx - o ∧ cx - o < p.iWidth then
        p.pPalette (p.pPixels.getD (cx - o).toNat 0)
      else m.cells cx cy := by
  rw [draws_lineWrites_cells]
  apply if_congr _ rfl rfl
  constructor
  · rintro ⟨h1, h2, h3, h4, h5, _⟩
    refine ⟨h1, h2, h3, ?_, ?_⟩ <;> omega
  · rintro ⟨h1, h2, h3, h4, h5⟩
    refine ⟨h1, h2, h3, ?_, ?_, rfl⟩ <;> omega

/-! ## The opaque path of `GIFDraw` -/

/-- C1. Opaque path of `GIFDraw`: on a scan line without transparency (flag 0, disposal
method not 2) whose panel row `r = iY + y + gifOffsetY` is visible, the call succeeds, leaves
the `GIFDRAW` record and the panel size alone, and the panel cell `(cx, cy)` afterwards holds
`palette[pixels[cx - gifOffsetX]]` when `cy = r`, `cx` is a panel column and
`cx - gifOffsetX` is a source column in `[0, iWidth)`; every other cell is unchanged. -/
theorem GIFDraw_opaque_path (gifOffsetX gifOffsetY : Int) (usTemp0 : Nat → Nat) (m : Matrix)
    (p : GIFDRAW) (hT : p.ucHasTransparency = 0) (hD : p.ucDisposalMethod ≠ 2)
    (hrow : 0 ≤ p.iY + p.y + gifOffsetY ∧ p.iY + p.y + gifOffsetY < m.h) :
    ∃ r : DrawResult, GIFDraw gifOffsetX gifOffsetY usTemp0 m p = .ok r ∧
      r.p = p ∧ r.m.w = m.w ∧ r.m.h = m.h ∧
      ∀ cx cy : Int, r.m.cells cx cy =
        if cy = p.iY + p.y + gifOffsetY ∧ 0 ≤ cx ∧ cx < m.w ∧
            0 ≤ cx - gifOffsetX ∧ cx - gifOffsetX < p.iWidth then
          p.pPalette (p.pPixels.getD (cx - gifOffsetX).toNat 0)
        else m.cells cx cy := by
  refine ⟨_, GIFDraw_opaque_eq gifOffsetX gifOffsetY usTemp0 m p hT hD hrow, rfl,
    Matrix.draws_w _ _, Matrix.draws_h _ _, ?_⟩
  intro cx cy
  exact draws_opaque_cells p gifOffsetX _ m cx cy

theorem GIFDraw_opaque_path_witness :
    ∃ r : DrawResult, GIFDraw (-1) 0 (fun _ => 0) panel4x2 (line6 0 0) = .ok r ∧
      r.p = line6 0 0 ∧ r.m.w = panel4x2.w ∧ r.m.h = panel4x2.h ∧
      ∀ cx cy : Int, r.m.cells cx cy =
        if cy = (line6 0 0).iY + (line6 0 0).y + 0 ∧ 0 ≤ cx ∧ cx < panel4x2.w ∧
            0 ≤ cx - (-1) ∧ cx - (-1) < (line6 0 0).iWidth then
          (line6 0 0).pPalette ((line6 0 0).pPixels.getD (cx - (-1)).toNat 0)
        else panel4x2.cells cx cy :=
  GIFDraw_opaque_path (-1) 0 (fun _ => 0) panel4x2 (line6 0 0) rfl (by decide) (by decide)


/-! ## Lemmas: the transparent path -/

theorem lineWrites_congr (p : GIFDRAW) (o y w : Int) (k₁ k₂ : Nat → Bool) (a n : Nat)
    (h : ∀ i, a ≤ i → i < a + n → k₁ i = k₂ i) :
    lineWrites p o y w k₁ a n = lineWrites p o y w k₂ a n := by
  induction n generalizing a with
  | zero => rfl
  | succ n ih =>
    rw [lineWrites_succ_left, lineWrites_succ_left, h a (le_refl a) (by omega),
      ih (a + 1) (fun i h1 h2 => h i (by omega) (by omega))]

theorem lineWrites_none (p : GIFDRAW) (o y w : Int) (k : Nat → Bool) (a n : Nat)
    (h : ∀ i, a ≤ i → i < a + n → k i = false) :
    lineWrites p o y w k a n = [] := by
  induction n generalizing a with
  | zero => rfl
  | succ n ih =>
    rw [lineWrites_succ_left, ih (a + 1) (fun i h1 h2 => h i (by omega) (by omega)),
      h a (le_refl a) (by omega)]
    simp

theorem countEq_zero (pix : List Nat) (t a : Nat) : countEq pix t a 0 = 0 := rfl

theorem countEq_append (pix : List Nat) (t a n k : Nat) :
    countEq pix t a (n + k) = countEq pix t a n + countEq pix t (a + n) k := by
  unfold countEq
  rw [← List.length_append, ← List.filter_append, List.range'_append_1, Nat.add_comm k n]

theorem countEq_succ_left (pix : List Nat) (t a n : Nat) :
    countEq pix t a (n + 1) = (if pix.getD a 0 = t then 1 else 0) + countEq pix t (a + 1) n := by
  unfold countEq
  rw [List.range'_succ, List.filter_cons]
  by_cases h : pix.getD a 0 = t
  · rw [if_pos (decide_eq_true h), if_pos h, List.length_cons]; omega
  · rw [if_neg (by simpa using h), if_neg h]; omega

theorem countEq_all (pix : List Nat) (t a n : Nat)
    (h : ∀ i, a ≤ i → i < a + n → pix.getD i 0 = t) : countEq pix t a n = n := by
  induction n generalizing a with
  | zero => rfl
  | succ n ih =>
    rw [countEq_succ_left, ih (a + 1) (fun i h1 h2 => h i (by omega) (by omega)),
      if_pos (h a (le_refl a) (by omega))]
    omega

theorem countEq_none (pix : List Nat) (t a n : Nat)
    (h : ∀ i, a ≤ i → i < a + n → pix.getD i 0 ≠ t) : countEq pix t a n = 0 := by
  induction n generalizing a with
  | zero => rfl
  | succ n ih =>
    rw [countEq_succ_left, ih (a + 1) (fun i h1 h2 => h i (by omega) (by omega)),
      if_neg (h a (le_refl a) (by omega))]

theorem scanOpaque_stop (p : GIFDRAW) (f : Nat) (st : Scan)
    (h : ¬ (st.c ≠ p.ucTransparent ∧ (st.s : Int) < p.iWidth)) :
    scanOpaque p f st = .ok st := by
  cases f <;> simp only [scanOpaque, h, if_false]

/-- The first inner loop, started inside a run that began at column `k`, stops at the first
transparent pixel or at the end of the line, having stored the palette entries of the run. -/
theorem scanOpaque_spec (p : GIFDRAW) (k : Nat) (hw : p.iWidth ≤ 320) (f : Nat) :
    ∀ st : Scan, st.c ≠ p.ucTransparent → st.s = k + st.d → (st.s : Int) ≤ p.iWidth →
      p.iWidth.toNat + 1 ≤ f + st.s →
      (∀ j, j < st.d → st.usTemp j = p.pPalette (p.pPixels.getD (k + j) 0)) →
      (∀ j, k ≤ j → j < st.s → p.pPixels.getD j 0 ≠ p.ucTransparent) →
      ∃ sc : Scan, scanOpaque p f st = .ok sc ∧ st.s ≤ sc.s ∧ (sc.s : Int) ≤ p.iWidth ∧
        sc.d = sc.s - k ∧ sc.iCount = st.iCount + (sc.s - st.s) ∧
        sc.lookups = st.lookups + (sc.s - st.s) ∧
        (∀ j, j < sc.d → sc.usTemp j = p.pPalette (p.pPixels.getD (k + j) 0)) ∧
        (∀ j, k ≤ j → j < sc.s → p.pPixels.getD j 0 ≠ p.ucTransparent) ∧
        ((sc.s : Int) < p.iWidth → p.pPixels.getD sc.s 0 = p.ucTransparent) := by
  induction f with
  | zero => intro st _ _ h3 h4; omega
  | succ f ih =>
    intro st hc hs hle hf hu hp
    by_cases hlt : (st.s : Int) < p.iWidth
    · unfold scanOpaque
      simp only [hc, hlt, ne_eq, not_false_eq_true, and_self, if_true, readPix]
      by_cases hpix : p.pPixels.getD st.s 0 = p.ucTransparent
      · simp only [hpix, if_true]
        rw [scanOpaque_stop p f _ (by simp)]
        refine ⟨_, rfl, le_refl _, hle, by simp; omega, by simp, by simp, hu, hp, ?_⟩
        intro _; exact hpix
      · simp only [hpix, if_false]
        have hd : st.d < 320 := by omega
        simp only [hd, if_true]
        obtain ⟨sc, h1, h2, h3, h4, h5, h6, h7, h8, h9⟩ :=
          ih { st with
               c := p.pPixels.getD st.s 0
               s := st.s + 1
               usTemp := fun i => if i = st.d then p.pPalette (p.pPixels.getD st.s 0)
                 else st.usTemp i
               d := st.d + 1
               iCount := st.iCount + 1
               lookups := st.lookups + 1 }
            hpix (by simp; omega) (by simp; omega) (by simp; omega)
            (by
              intro j hj
              simp only at hj ⊢
              by_cases hjd : j = st.d
              · simp only [hjd, if_true]; rw [hs]
              · simp only [hjd, if_false]; exact hu j (by omega))
            (by
              intro j hj1 hj2
              simp only at hj2
              by_cases hjs : j = st.s
              · rw [hjs]; exact hpix
              · exact hp j hj1 (by omega))
        simp only at h2 h5 h6
        exact ⟨sc, h1, by omega, h3, h4, by omega, by omega, h7, h8, h9⟩
    · rw [scanOpaque_stop p _ st (by tauto)]
      refine ⟨st, rfl, le_refl _, hle, by omega, by simp, by simp, hu, hp, ?_⟩
      intro h; exact absurd h hlt

theorem scanTransparent_stop (p : GIFDRAW) (f c s ic : Nat)
    (h : ¬ (c = p.ucTransparent ∧ (s : Int) < p.iWidth)) :
    scanTransparent p f (c, s, ic) = .ok (c, s, ic) := by
  cases f <;> simp only [scanTransparent, h, if_false]

/-- The second inner loop counts the transparent pixels from `s` up to the next opaque pixel
or the end of the line. -/
theorem scanTransparent_spec (p : GIFDRAW) (f : Nat) :
    ∀ s ic : Nat, (s : Int) ≤ p.iWidth → p.iWidth.toNat + 1 ≤ f + s →
      ∃ c e : Nat, scanTransparent p f (p.ucTransparent, s, ic) = .ok (c, e, ic + (e - s)) ∧
        s ≤ e ∧ (e : Int) ≤ p.iWidth ∧
        (∀ j, s ≤ j → j < e → p.pPixels.getD j 0 = p.ucTransparent) ∧
        ((e : Int) < p.iWidth → p.pPixels.getD e 0 ≠ p.ucTransparent) := by
  induction f with
  | zero => intro s ic h1 h2; omega
  | succ f ih =>
    intro s ic hle hf
    by_cases hlt : (s : Int) < p.iWidth
    · unfold scanTransparent
      simp only [hlt, and_self, if_true, readPix]
      by_cases hpix : p.pPixels.getD s 0 = p.ucTransparent
      · simp only [hpix, if_true]
        obtain ⟨c, e, h1, h2, h3, h4, h5⟩ := ih (s + 1) (ic + 1) (by omega) (by omega)
        refine ⟨c, e, ?_, by omega, h3, ?_, h5⟩
        · rw [h1]
          have : ic + 1 + (e - (s + 1)) = ic + (e - s) := by omega
          rw [this]
        · intro j hj1 hj2
          by_cases hjs : j = s
          · rw [hjs]; exact hpix
          · exact h4 j (by omega) hj2
      · simp only [hpix, if_false]
        rw [scanTransparent_stop p f _ s ic (by tauto)]
        refine ⟨p.pPixels.getD s 0, s, by simp, le_refl _, hle, ?_, ?_⟩
        · intro j h1 h2; omega
        · intro _; exact hpix
    · rw [scanTransparent_stop p _ _ s ic (by tauto)]
      refine ⟨p.ucTransparent, s, by simp, le_refl _, hle, ?_, ?_⟩
      · intro j h1 h2; omega
      · intro h; exact absurd h hlt

/-- The blit of a run that starts at source column `x` replays the writes of that run. -/
theorem blitLoop_eq (p : GIFDRAW) (o y : Int) (x d : Nat) (usTemp : Nat → Nat)
    (hu : ∀ j, j < d → usTemp j = p.pPalette (p.pPixels.getD (x + j) 0)) (n : Nat) :
    ∀ (xo : Nat) (m : Matrix), xo + n ≤ d →
      blitLoop o y x d usTemp n xo m =
        .ok (m.draws (lineWrites p o y m.w (fun _ => true) (x + xo) n)) := by
  induction n with
  | zero => intro xo m _; rfl
  | succ n ih =>
    intro xo m hd
    rw [lineWrites_succ_left]
    unfold blitLoop
    have hxo : xo < d := by omega
    have e1 : ((x + xo : Nat) : Int) + o = (x : Int) + (xo : Int) + o := by push_cast; ring
    by_cases hc : 0 ≤ (x : Int) + (xo : Int) + o ∧ (x : Int) + (xo : Int) + o < m.w
    · simp only [hc, and_self, if_true, hxo, e1, true_and]
      rw [ih (xo + 1) _ (by omega), hu xo hxo]
      rfl
    · simp only [hc, if_false, e1, true_and, List.nil_append]
      rw [ih (xo + 1) m (by omega)]
      rfl


/-- The outer loop of the transparent path, entered at a run boundary `x = s`, replays the
writes of the opaque pixels of the rest of the line and looks up the palette once for each. -/
theorem transparentLoop_spec (p : GIFDRAW) (o y : Int) (hw : p.iWidth ≤ 320) (f : Nat) :
    ∀ r : Run, r.s = r.x → r.iCount = 0 → ((r.x : Int) ≤ p.iWidth ∨ p.iWidth < 0) →
      p.iWidth.toNat ≤ f + r.x →
      ∃ r1 : Run, transparentLoop p o y f r = .ok r1 ∧
        r1.m = r.m.draws (lineWrites p o y r.m.w (opaqueAt p) r.x (p.iWidth.toNat - r.x)) ∧
        r1.lookups + countEq p.pPixels p.ucTransparent r.x (p.iWidth.toNat - r.x) =
          r.lookups + (p.iWidth.toNat - r.x) := by
  have hdone : ∀ (f : Nat) (r : Run), ¬ (r.x : Int) < p.iWidth →
      ∃ r1 : Run, transparentLoop p o y f r = .ok r1 ∧
        r1.m = r.m.draws (lineWrites p o y r.m.w (opaqueAt p) r.x (p.iWidth.toNat - r.x)) ∧
        r1.lookups + countEq p.pPixels p.ucTransparent r.x (p.iWidth.toNat - r.x) =
          r.lookups + (p.iWidth.toNat - r.x) := by
    intro f r hlt
    have h0 : p.iWidth.toNat - r.x = 0 := by omega
    refine ⟨r, ?_, ?_, ?_⟩
    · cases f <;> simp only [transparentLoop, hlt, if_false]
    · rw [h0, lineWrites_zero, Matrix.draws_nil]
    · rw [h0, countEq_zero]
  induction f with
  | zero =>
    intro r _ _ _ hf
    exact hdone 0 r (by omega)
  | succ f ih =>
    intro r hs hi hle hf
    by_cases hlt : (r.x : Int) < p.iWidth
    swap
    · exact hdone _ r hlt
    obtain ⟨sc, a1, a2, a3, a4, a5, a6, a7, a8, a9⟩ :=
      scanOpaque_spec p r.x hw (p.iWidth.toNat + 1)
        { c := (p.ucTransparent + 255) % 256, s := r.s, d := 0, iCount := r.iCount,
          usTemp := r.usTemp, lookups := r.lookups }
        (by simp only; omega) (by simp only; omega) (by simp only; omega) (by simp only; omega)
        (by intro j hj; simp only at hj; omega)
        (by intro j h1 h2; simp only at h2; omega)
    simp only at a2 a5 a6
    have hblit : (if sc.iCount ≠ 0 then
          (blitLoop o y r.x sc.d sc.usTemp sc.iCount 0 r.m).map
            (fun m1 => (m1, r.x + sc.iCount, 0))
        else .ok (r.m, r.x, sc.iCount)) =
        (.ok (r.m.draws (lineWrites p o y r.m.w (opaqueAt p) r.x (sc.s - r.x)), sc.s, 0) :
          Except Fault (Matrix × Nat × Nat)) := by
      have hrun : lineWrites p o y r.m.w (opaqueAt p) r.x (sc.s - r.x) =
          lineWrites p o y r.m.w (fun _ => true) r.x (sc.s - r.x) := by
        apply lineWrites_congr
        intro i h1 h2
        simp only [opaqueAt, decide_eq_true_eq]
        exact a8 i h1 (by omega)
      by_cases hz : sc.iCount = 0
      · have e0 : sc.s - r.x = 0 := by omega
        have e1 : r.x = sc.s := by omega
        simp only [hz, ne_eq, not_true_eq_false, if_false, e0, lineWrites_zero,
          Matrix.draws_nil]
        rw [← e1]
      · simp only [hz, ne_eq, not_false_eq_true, if_true]
        rw [blitLoop_eq p o y r.x sc.d sc.usTemp a7 sc.iCount 0 r.m (by omega), hrun]
        have e2 : sc.iCount = sc.s - r.x := by omega
        have e3 : r.x + (sc.s - r.x) = sc.s := by omega
        simp only [Except.map, e2, e3, Nat.add_zero]
    obtain ⟨c, e, b1, b2, b3, b4, b5⟩ :=
      scanTransparent_spec p (p.iWidth.toNat + 1) sc.s 0 a3 (by omega)
    have hprog : r.x < e := by
      by_contra hcon
      have e1 : sc.s = r.x := by omega
      have e2 : e = r.x := by omega
      rw [e1] at a9
      rw [e2] at b5
      exact b5 hlt (a9 hlt)
    obtain ⟨r1, c1, c2, c3⟩ :=
      ih { s := e, x := e, iCount := 0, usTemp := sc.usTemp, lookups := sc.lookups,
           m := r.m.draws (lineWrites p o y r.m.w (opaqueAt p) r.x (sc.s - r.x)) }
        rfl rfl (Or.inl b3) (by simp only; omega)
    simp only [Matrix.draws_w] at c2
    refine ⟨r1, ?_, ?_, ?_⟩
    · unfold transparentLoop
      simp only [hlt, if_true, a1, hblit, b1, Nat.zero_add]
      rw [← c1]
      congr 1
      by_cases hz : e - sc.s = 0
      · have : sc.s = e := by omega
        simp [hz, this]
      · have : sc.s + (e - sc.s) = e := by omega
        simp [hz, this]
    · have hsplit : p.iWidth.toNat - r.x = (sc.s - r.x) + ((e - sc.s) + (p.iWidth.toNat - e)) := by
        omega
      have hgap : lineWrites p o y r.m.w (opaqueAt p) sc.s (e - sc.s) = [] := by
        apply lineWrites_none
        intro i h1 h2
        simp only [opaqueAt, decide_eq_false_iff_not, not_not]
        exact b4 i h1 (by omega)
      have e4 : r.x + (sc.s - r.x) = sc.s := by omega
      have e5 : sc.s + (e - sc.s) = e := by omega
      rw [c2, hsplit, lineWrites_append, lineWrites_append, e4, e5, hgap, List.nil_append,
        Matrix.draws_append]
    · have hsplit : p.iWidth.toNat - r.x = (sc.s - r.x) + ((e - sc.s) + (p.iWidth.toNat - e)) := by
        omega
      have e4 : r.x + (sc.s - r.x) = sc.s := by omega
      have e5 : sc.s + (e - sc.s) = e := by omega
      have g1 : countEq p.pPixels p.ucTransparent r.x (sc.s - r.x) = 0 :=
        countEq_none _ _ _ _ (fun i h1 h2 => a8 i h1 (by omega))
      have g2 : countEq p.pPixels p.ucTransparent sc.s (e - sc.s) = e - sc.s :=
        countEq_all _ _ _ _ (fun i h1 h2 => b4 i h1 (by omega))
      simp only at c3
      rw [hsplit, countEq_append, countEq_append, e4, e5, g1, g2]
      omega


/-- The whole of `GIFDraw` on a visible line that takes the transparent path. -/
theorem GIFDraw_transparent_eq (o oy : Int) (u0 : Nat → Nat) (m : Matrix) (p : GIFDRAW)
    (hT : p.ucHasTransparency ≠ 0) (hD : p.ucDisposalMethod ≠ 2) (hw : p.iWidth ≤ 320)
    (hrow : 0 ≤ p.iY + p.y + oy ∧ p.iY + p.y + oy < m.h) :
    ∃ r : DrawResult, GIFDraw o oy u0 m p = .ok r ∧ r.p = p ∧
      r.m = m.draws (lineWrites p o (p.iY + p.y + oy) m.w (opaqueAt p) 0 p.iWidth.toNat) ∧
      r.lookups + countEq p.pPixels p.ucTransparent 0 p.iWidth.toNat = p.iWidth.toNat := by
  have hv : ¬ (p.iY + p.y + oy < 0 ∨ p.iY + p.y + oy ≥ m.h) := by omega
  obtain ⟨r1, h1, h2, h3⟩ :=
    transparentLoop_spec p o (p.iY + p.y + oy) hw p.iWidth.toNat
      { s := 0, x := 0, iCount := 0, usTemp := u0, lookups := 0, m := m } rfl rfl
      (by simp only; omega) (by simp only; omega)
  simp only [Nat.sub_zero, Nat.zero_add] at h2 h3
  refine ⟨{ m := r1.m, p := p, lookups := r1.lookups }, ?_, rfl, h2, h3⟩
  unfold GIFDraw
  simp only [hv, if_false, hD, hT, ne_eq, not_false_eq_true, if_true, h1]

/-! ## The transparent path of `GIFDraw` -/

/-- C2. Transparent path of `GIFDraw`: on a visible scan line with the transparency flag set,
disposal method not 2 and `iWidth ≤ 320`, the call succeeds; the `drawPixel` calls it adds are
exactly the triples `(x + gifOffsetX, r, palette[pixels[x]])` for the source columns
`x < iWidth` with `pixels[x] ≠ ucTransparent` and `0 ≤ x + gifOffsetX < width`; a panel cell
holds that colour afterwards if it is such a cell and is unchanged otherwise (so no cell of
a transparent pixel is written); and the number of palette look-ups equals `iWidth` minus
the number of pixels equal to `ucTransparent`. -/
theorem GIFDraw_transparent_path (gifOffsetX gifOffsetY : Int) (usTemp0 : Nat → Nat)
    (m : Matrix) (p : GIFDRAW) (hT : p.ucHasTransparency ≠ 0) (hD : p.ucDisposalMethod ≠ 2)
    (hw : p.iWidth ≤ 320)
    (hrow : 0 ≤ p.iY + p.y + gifOffsetY ∧ p.iY + p.y + gifOffsetY < m.h) :
    ∃ (r : DrawResult) (written : List (Int × Int × Nat)),
      GIFDraw gifOffsetX gifOffsetY usTemp0 m p = .ok r ∧
      r.m.log = m.log ++ written ∧
      (∀ e : Int × Int × Nat, e ∈ written ↔
        ∃ x : Nat, (x : Int) < p.iWidth ∧ p.pPixels.getD x 0 ≠ p.ucTransparent ∧
          0 ≤ (x : Int) + gifOffsetX ∧ (x : Int) + gifOffsetX < m.w ∧
          e = ((x : Int) + gifOffsetX, p.iY + p.y + gifOffsetY,
                p.pPalette (p.pPixels.getD x 0))) ∧
      (∀ cx cy : Int, r.m.cells cx cy =
        if cy = p.iY + p.y + gifOffsetY ∧ 0 ≤ cx ∧ cx < m.w ∧
            0 ≤ cx - gifOffsetX ∧ cx - gifOffsetX < p.iWidth ∧
            p.pPixels.getD (cx - gifOffsetX).toNat 0 ≠ p.ucTransparent then
          p.pPalette (p.pPixels.getD (cx - gifOffsetX).toNat 0)
        else m.cells cx cy) ∧
      r.lookups = p.iWidth.toNat - countEq p.pPixels p.ucTransparent 0 p.iWidth.toNat := by
  obtain ⟨r, h1, _, h3, h4⟩ :=
    GIFDraw_transparent_eq gifOffsetX gifOffsetY usTemp0 m p hT hD hw hrow
  refine ⟨r, lineWrites p gifOffsetX (p.iY + p.y + gifOffsetY) m.w (opaqueAt p) 0
    p.iWidth.toNat, h1, ?_, ?_, ?_, by omega⟩
  · rw [h3, Matrix.draws_log]
  · intro e
    rw [mem_lineWrites]
    constructor
    · rintro ⟨x, _, a2, a3, a4, a5, a6⟩
      simp only [opaqueAt, decide_eq_true_eq] at a3
      exact ⟨x, by omega, a3, a4, a5, a6⟩
    · rintro ⟨x, a2, a3, a4, a5, a6⟩
      refine ⟨x, Nat.zero_le _, by omega, ?_, a4, a5, a6⟩
      simp only [opaqueAt, decide_eq_true_eq]
      exact a3
  · intro cx cy
    rw [h3, draws_lineWrites_cells]
    apply if_congr _ rfl rfl
    simp only [opaqueAt, decide_eq_true_eq]
    constructor
    · rintro ⟨b1, b2, b3, b4, b5, b6⟩
      refine ⟨b1, b2, b3, ?_, ?_, b6⟩ <;> omega
    · rintro ⟨b1, b2, b3, b4, b5, b6⟩
      refine ⟨b1, b2, b3, ?_, ?_, b6⟩ <;> omega

theorem GIFDraw_transparent_path_witness :
    ∃ (r : DrawResult) (written : List (Int × Int × Nat)),
      GIFDraw (-1) 0 (fun _ => 0) panel4x2 (line6 1 0) = .ok r ∧
      r.m.log = panel4x2.log ++ written ∧
      (∀ e : Int × Int × Nat, e ∈ written ↔
        ∃ x : Nat, (x : Int) < (line6 1 0).iWidth ∧
          (line6 1 0).pPixels.getD x 0 ≠ (line6 1 0).ucTransparent ∧
          0 ≤ (x : Int) + (-1) ∧ (x : Int) + (-1) < panel4x2.w ∧
          e = ((x : Int) + (-1), (line6 1 0).iY + (line6 1 0).y + 0,
                (line6 1 0).pPalette ((line6 1 0).pPixels.getD x 0))) ∧
      (∀ cx cy : Int, r.m.cells cx cy =
        if cy = (line6 1 0).iY + (line6 1 0).y + 0 ∧ 0 ≤ cx ∧ cx < panel4x2.w ∧
            0 ≤ cx - (-1) ∧ cx - (-1) < (line6 1 0).iWidth ∧
            (line6 1 0).pPixels.getD (cx - (-1)).toNat 0 ≠ (line6 1 0).ucTransparent then
          (line6 1 0).pPalette ((line6 1 0).pPixels.getD (cx - (-1)).toNat 0)
        else panel4x2.cells cx cy) ∧
      r.lookups = (line6 1 0).iWidth.toNat -
        countEq (line6 1 0).pPixels (line6 1 0).ucTransparent 0 (line6 1 0).iWidth.toNat :=
  GIFDraw_transparent_path (-1) 0 (fun _ => 0) panel4x2 (line6 1 0) (by decide) (by decide)
    (by decide) (by decide)


/-! ## Lemmas: disposal method 2 -/

theorem getD_set_zero (l : List Nat) (i j a : Nat) :
    (l.set i a).getD j 0 = if i = j ∧ i < l.length then a else l.getD j 0 := by
  simp only [List.getD_eq_getElem?_getD, List.getElem?_set]
  by_cases h : i = j
  · subst h
    by_cases hl : i < l.length
    · simp [hl]
    · simp [hl, List.getElem?_eq_none (Nat.le_of_not_lt hl)]
  · simp [h]

/-- Entry `i` of the scan line after the rewrite loop of lines 95-99 has run over the columns
`a .. a + n - 1`. -/
theorem disposeLoop_getD (t bg : Nat) (n : Nat) :
    ∀ (a : Nat) (pix : List Nat) (i : Nat),
      (disposeLoop t bg n a pix).getD i 0 =
        if a ≤ i ∧ i < a + n ∧ i < pix.length ∧ pix.getD i 0 = t then bg else pix.getD i 0 := by
  induction n with
  | zero =>
    intro a pix i
    rw [if_neg (by omega)]
    rfl
  | succ n ih =>
    intro a pix i
    unfold disposeLoop
    by_cases ha : pix.getD a 0 = t
    · rw [if_pos ha, ih, List.length_set, getD_set_zero]
      by_cases hia : a = i
      · subst hia
        rw [if_neg (by omega)]
        by_cases hl : a < pix.length
        · rw [if_pos ⟨rfl, hl⟩, if_pos ⟨le_refl _, by omega, hl, ha⟩]
        · rw [if_neg (by tauto), if_neg (by tauto)]
      · have e : (if a = i ∧ a < pix.length then bg else pix.getD i 0) = pix.getD i 0 :=
          if_neg (by tauto)
        rw [e]
        apply if_congr _ rfl rfl
        constructor
        · rintro ⟨h1, h2, h3, h4⟩
          exact ⟨by omega, by omega, h3, h4⟩
        · rintro ⟨h1, h2, h3, h4⟩
          exact ⟨by omega, by omega, h3, h4⟩
    · rw [if_neg ha, ih]
      apply if_congr _ rfl rfl
      constructor
      · rintro ⟨h1, h2, h3, h4⟩
        exact ⟨by omega, by omega, h3, h4⟩
      · rintro ⟨h1, h2, h3, h4⟩
        refine ⟨?_, by omega, h3, h4⟩
        by_contra hc
        have : a = i := by omega
        subst this
        exact ha h4

theorem restoredPixels_getD (p : GIFDRAW) (i : Nat) :
    (restoredPixels p).getD i 0 =
      if i < p.pPixels.length ∧ p.pPixels.getD i 0 = p.ucTransparent then p.ucBackground
      else p.pPixels.getD i 0 := by
  simp only [restoredPixels, List.getD_eq_getElem?_getD, List.getElem?_map]
  by_cases hl : i < p.pPixels.length
  · simp only [List.getElem?_eq_getElem hl, Option.map_some', Option.getD_some, hl, true_and]
  · simp [hl, List.getElem?_eq_none (Nat.le_of_not_lt hl)]

theorem lineWrites_pix_congr (p q : GIFDRAW) (o y w : Int) (keep : Nat → Bool) (a n : Nat)
    (hpal : p.pPalette = q.pPalette)
    (h : ∀ i, a ≤ i → i < a + n → 0 ≤ (i : Int) + o → (i : Int) + o < w →
      p.pPixels.getD i 0 = q.pPixels.getD i 0) :
    lineWrites p o y w keep a n = lineWrites q o y w keep a n := by
  induction n generalizing a with
  | zero => rfl
  | succ n ih =>
    rw [lineWrites_succ_left, lineWrites_succ_left,
      ih (a + 1) (fun i h1 h2 => h i (by omega) (by omega))]
    by_cases hc : keep a = true ∧ 0 ≤ (a : Int) + o ∧ (a : Int) + o < w
    · rw [if_pos hc, if_pos hc, hpal, h a (le_refl a) (by omega) hc.2.1 hc.2.2]
    · rw [if_neg hc, if_neg hc]

/-- The whole of `GIFDraw` on a visible line with disposal method 2. -/
theorem GIFDraw_dispose_eq (o oy : Int) (u0 : Nat → Nat) (m : Matrix) (p : GIFDRAW)
    (hD : p.ucDisposalMethod = 2)
    (hrow : 0 ≤ p.iY + p.y + oy ∧ p.iY + p.y + oy < m.h) :
    ∃ r : DrawResult, GIFDraw o oy u0 m p = .ok r ∧ r.p.ucHasTransparency = 0 ∧
      r.m = m.draws
        (lineWrites { p with pPixels := restoredPixels p, ucHasTransparency := 0,
                             ucDisposalMethod := 0 }
          o (p.iY + p.y + oy) m.w (fun _ => true) 0 p.iWidth.toNat) := by
  have hv : ¬ (p.iY + p.y + oy < 0 ∨ p.iY + p.y + oy ≥ m.h) := by omega
  refine ⟨{ m := m.draws (lineWrites
                { p with
                  pPixels := disposeLoop p.ucTransparent p.ucBackground
                    (if p.iWidth + o > m.w then m.w - o else p.iWidth).toNat 0 p.pPixels
                  ucHasTransparency := 0 }
                o (p.iY + p.y + oy) m.w (fun _ => true) 0 p.iWidth.toNat)
            p := { p with
                   pPixels := disposeLoop p.ucTransparent p.ucBackground
                     (if p.iWidth + o > m.w then m.w - o else p.iWidth).toNat 0 p.pPixels
                   ucHasTransparency := 0 }
            lookups := 0 }, ?_, ?_, ?_⟩
  · unfold GIFDraw
    simp only [hv, if_false, hD, if_true, ne_eq, not_true_eq_false]
    rw [opaqueLoop_full]
  · rfl
  · simp only
    congr 1
    refine lineWrites_pix_congr _ _ _ _ _ _ _ _ ?_ ?_
    · rfl
    intro i _ h2 h3 h4
    simp only [disposeLoop_getD, restoredPixels_getD]
    apply if_congr _ rfl rfl
    constructor
    · rintro ⟨_, _, b3, b4⟩
      exact ⟨b3, b4⟩
    · rintro ⟨b3, b4⟩
      refine ⟨Nat.zero_le _, ?_, b3, b4⟩
      simp only at h2
      split_ifs <;> omega


/-! ## Disposal method 2 in `GIFDraw` -/

/-- C3. Disposal method 2 in `GIFDraw`: on a visible scan line with `ucDisposalMethod = 2`
whose buffer holds the `iWidth` pixels of the line, whatever the transparency flag, the call
succeeds and the panel it leaves equals the panel left by the opaque path (flag 0, disposal
method 0) on the line in which every pixel equal to `ucTransparent` is replaced by
`ucBackground`; every panel cell `(cx, r)` of a source column `cx - gifOffsetX` in
`[0, iWidth)` holds `palette[ucBackground]` when that pixel is `ucTransparent` and
`palette[pixel]` otherwise, every other cell is unchanged, and the transparency flag is 0
afterwards. -/
theorem GIFDraw_disposal_two (gifOffsetX gifOffsetY : Int) (usTemp0 : Nat → Nat) (m : Matrix)
    (p : GIFDRAW) (hD : p.ucDisposalMethod = 2)
    (hrow : 0 ≤ p.iY + p.y + gifOffsetY ∧ p.iY + p.y + gifOffsetY < m.h)
    (hlen : p.iWidth ≤ (p.pPixels.length : Int)) :
    ∃ r r1 : DrawResult,
      GIFDraw gifOffsetX gifOffsetY usTemp0 m p = .ok r ∧
      GIFDraw gifOffsetX gifOffsetY usTemp0 m
        { p with pPixels := restoredPixels p, ucHasTransparency := 0, ucDisposalMethod := 0 } =
          .ok r1 ∧
      r.m = r1.m ∧ r.p.ucHasTransparency = 0 ∧
      ∀ cx cy : Int, r.m.cells cx cy =
        if cy = p.iY + p.y + gifOffsetY ∧ 0 ≤ cx ∧ cx < m.w ∧
            0 ≤ cx - gifOffsetX ∧ cx - gifOffsetX < p.iWidth then
          (if p.pPixels.getD (cx - gifOffsetX).toNat 0 = p.ucTransparent then
            p.pPalette p.ucBackground
          else p.pPalette (p.pPixels.getD (cx - gifOffsetX).toNat 0))
        else m.cells cx cy := by
  obtain ⟨r, h1, h2, h3⟩ := GIFDraw_dispose_eq gifOffsetX gifOffsetY usTemp0 m p hD hrow
  refine ⟨r, _, h1,
    GIFDraw_opaque_eq gifOffsetX gifOffsetY usTemp0 m
      { p with pPixels := restoredPixels p, ucHasTransparency := 0, ucDisposalMethod := 0 }
      rfl (show (0 : Nat) ≠ 2 by decide) hrow, h3, h2, ?_⟩
  intro cx cy
  rw [h3]
  have hc := draws_opaque_cells
    { p with pPixels := restoredPixels p, ucHasTransparency := 0, ucDisposalMethod := 0 }
    gifOffsetX (p.iY + p.y + gifOffsetY) m cx cy
  simp only at hc
  rw [hc]
  by_cases hin : cy = p.iY + p.y + gifOffsetY ∧ 0 ≤ cx ∧ cx < m.w ∧
      0 ≤ cx - gifOffsetX ∧ cx - gifOffsetX < p.iWidth
  · rw [if_pos hin, if_pos hin, restoredPixels_getD]
    have hl : (cx - gifOffsetX).toNat < p.pPixels.length := by omega
    by_cases ht : p.pPixels.getD (cx - gifOffsetX).toNat 0 = p.ucTransparent
    · rw [if_pos ⟨hl, ht⟩, if_pos ht]
    · rw [if_neg (by tauto), if_neg ht]
  · rw [if_neg hin, if_neg hin]

theorem GIFDraw_disposal_two_witness :
    ∃ r r1 : DrawResult,
      GIFDraw 1 0 (fun _ => 0) panel4x2 (line6 1 2) = .ok r ∧
      GIFDraw 1 0 (fun _ => 0) panel4x2
        { line6 1 2 with pPixels := restoredPixels (line6 1 2), ucHasTransparency := 0,
                         ucDisposalMethod := 0 } = .ok r1 ∧
      r.m = r1.m ∧ r.p.ucHasTransparency = 0 ∧
      ∀ cx cy : Int, r.m.cells cx cy =
        if cy = (line6 1 2).iY + (line6 1 2).y + 0 ∧ 0 ≤ cx ∧ cx < panel4x2.w ∧
            0 ≤ cx - 1 ∧ cx - 1 < (line6 1 2).iWidth then
          (if (line6 1 2).pPixels.getD (cx - 1).toNat 0 = (line6 1 2).ucTransparent then
            (line6 1 2).pPalette (line6 1 2).ucBackground
          else (line6 1 2).pPalette ((line6 1 2).pPixels.getD (cx - 1).toNat 0))
        else panel4x2.cells cx cy :=
  GIFDraw_disposal_two 1 0 (fun _ => 0) panel4x2 (line6 1 2) rfl (by decide) (by decide)


/-! ## The rotation cursor of `openNextGif` -/

theorem openAttempts_append (l₁ l₂ : List GifEvent) :
    openAttempts (l₁ ++ l₂) = openAttempts l₁ ++ openAttempts l₂ := by
  induction l₁ with
  | nil => rfl
  | cons e l ih => cases e <;> simp [openAttempts, ih]

/-- One call of `openNextGif` on a non-empty list: the list is kept, the cursor advances
circularly, and exactly one `gif.open` is attempted, on the asset at the old cursor. -/
theorem openNextGif_step (env : GifEnv) (now : Nat) (p : Player)
    (hN : p.gifFiles.length ≠ 0) :
    (openNextGif env now p).gifFiles = p.gifFiles ∧
    (openNextGif env now p).currentGifIndex = (p.currentGifIndex + 1) % p.gifFiles.length ∧
    openAttempts (openNextGif env now p).events =
      openAttempts p.events ++ [p.currentGifIndex] := by
  unfold openNextGif
  simp only [hN, if_false]
  cases hopen : p.gifOpen
  · simp only [Bool.false_eq_true, if_false]
    split <;> simp [openAttempts_append, openAttempts]
  · simp only [if_true]
    split <;> simp [openAttempts_append, openAttempts]

theorem openNextGifs_from (envs : List GifEnv) :
    ∀ p : Player, p.gifFiles.length ≠ 0 → p.currentGifIndex < p.gifFiles.length →
      (openNextGifs envs p).gifFiles = p.gifFiles ∧
      (openNextGifs envs p).currentGifIndex =
        (p.currentGifIndex + envs.length) % p.gifFiles.length ∧
      openAttempts (openNextGifs envs p).events =
        openAttempts p.events ++
          (List.range' p.currentGifIndex envs.length).map (fun i => i % p.gifFiles.length) := by
  induction envs with
  | nil =>
    intro p _ hc
    simp [openNextGifs, Nat.mod_eq_of_lt hc]
  | cons env rest ih =>
    intro p hN hc
    obtain ⟨h1, h2, h3⟩ := openNextGif_step env env.millisOpen1 p hN
    obtain ⟨g1, g2, g3⟩ := ih (openNextGif env env.millisOpen1 p) (by rw [h1]; exact hN)
      (by rw [h1, h2]; exact Nat.mod_lt _ (Nat.pos_of_ne_zero hN))
    rw [h1] at g1 g2 g3
    rw [h2] at g2 g3
    rw [h3] at g3
    refine ⟨g1, ?_, ?_⟩
    · show (openNextGifs rest (openNextGif env env.millisOpen1 p)).currentGifIndex = _
      rw [g2, List.length_cons, Nat.add_mod, Nat.mod_mod, ← Nat.add_mod]
      congr 1
      omega
    · show openAttempts (openNextGifs rest (openNextGif env env.millisOpen1 p)).events = _
      rw [g3, List.length_cons, List.range'_succ, List.map_cons, List.append_assoc,
        List.singleton_append, Nat.mod_eq_of_lt hc]
      congr 2
      by_cases hlast : p.currentGifIndex + 1 = p.gifFiles.length
      · rw [hlast, Nat.mod_self]
        apply List.ext_getElem
        · simp
        · intro i h1 h2
          simp only [List.length_map, List.length_range'] at h1
          simp [List.getElem_range']
      · rw [Nat.mod_eq_of_lt (by omega)]

/-- C6. Rotation cursor of `openNextGif`: on a non-empty asset list of length `N`, each call
moves the cursor from `i` to `(i + 1) mod N` whatever the outcome of the open; and from
cursor 0, `N` consecutive calls attempt to open the assets `0, 1, ..., N - 1` in that order,
each once, and leave the cursor at 0. -/
theorem openNextGif_rotation (p : Player) (envs : List GifEnv)
    (hN : p.gifFiles.length ≠ 0) (hlen : envs.length = p.gifFiles.length)
    (h0 : p.currentGifIndex = 0) :
    (∀ (env : GifEnv) (now i : Nat),
      (openNextGif env now { p with currentGifIndex := i }).currentGifIndex =
        (i + 1) % p.gifFiles.length) ∧
    openAttempts (openNextGifs envs p).events =
      openAttempts p.events ++ List.range p.gifFiles.length ∧
    (openNextGifs envs p).currentGifIndex = 0 := by
  refine ⟨fun env now i =>
    (openNextGif_step env now { p with currentGifIndex := i } hN).2.1, ?_⟩
  obtain ⟨_, g2, g3⟩ := openNextGifs_from envs p hN (by omega)
  rw [h0, hlen] at g2 g3
  refine ⟨?_, by rw [g2, Nat.zero_add, Nat.mod_self]⟩
  rw [g3]
  congr 1
  apply List.ext_getElem
  · simp
  · intro i h1 h2
    simp only [List.length_map, List.length_range'] at h1
    simp [List.getElem_range', Nat.mod_eq_of_lt h1]

theorem openNextGif_rotation_witness :
    (∀ (env : GifEnv) (now i : Nat),
      (openNextGif env now { twoGifsPlayer with currentGifIndex := i }).currentGifIndex =
        (i + 1) % twoGifsPlayer.gifFiles.length) ∧
    openAttempts (openNextGifs [twoGifsEnv 0, twoGifsEnv 5] twoGifsPlayer).events =
      openAttempts twoGifsPlayer.events ++ List.range twoGifsPlayer.gifFiles.length ∧
    (openNextGifs [twoGifsEnv 0, twoGifsEnv 5] twoGifsPlayer).currentGifIndex = 0 :=
  openNextGif_rotation twoGifsPlayer [twoGifsEnv 0, twoGifsEnv 5] (by decide) (by decide)
    (by decide)


/-! ## Timed rotation in `drawFrame` -/

/-- C7, as stated, fails at the boundary: with `a.gif` opened at time 1000, the tick at time
9000 (8000 ms later) neither closes `a.gif` nor opens `b.gif`; it plays a frame of `a.gif`. -/
theorem drawFrame_rotation_at_8000 :
    playingA.gifFiles = ["/gifs/a.gif", "/gifs/b.gif"] ∧ playingA.gifOpen = true ∧
    playingA.session = "/gifs/a.gif" ∧
    ((twoGifsEnv 9000).millisCheck : Int) - (playingA.gifStartTime : Int) ≥ 8000 ∧
    (drawFrame (twoGifsEnv 9000) playingA).1.events = playingA.events ++ [GifEvent.play] ∧
    (drawFrame (twoGifsEnv 9000) playingA).1.session = "/gifs/a.gif" := by
  decide

/-- C7, amended. Timed rotation in `drawFrame`: on a tick with a non-empty asset list and an
open session, if more than 8000 ms have elapsed since the session was opened
(`millis() - gifStartTime > GIF_PLAY_TIME` in 32-bit unsigned arithmetic), the tick first
closes the current session, then attempts to open the asset at the cursor; when the open
succeeds it clears the panel and only then plays a frame, on the cleared panel, and when it
fails it plays nothing and returns 100. -/
theorem drawFrame_timed_rotation (env : GifEnv) (p : Player)
    (hN : p.gifFiles.length ≠ 0) (hopen : p.gifOpen = true)
    (hT : ((env.millisCheck : Int) - (p.gifStartTime : Int)) % 4294967296 > 8000) :
    (drawFrame env p).1.events =
      p.events ++ [GifEvent.close p.session] ++
        (match env.gifOpenResult (toCharArray (p.gifFiles.getD p.currentGifIndex "") 256) with
          | some _ =>
            [GifEvent.openTry p.currentGifIndex
                (toCharArray (p.gifFiles.getD p.currentGifIndex "") 256) true,
              GifEvent.clear, GifEvent.play] ++
              (if env.playFrame = 0 then [GifEvent.reset] else [])
          | none =>
            [GifEvent.openTry p.currentGifIndex
                (toCharArray (p.gifFiles.getD p.currentGifIndex "") 256) false]) ∧
    (match env.gifOpenResult (toCharArray (p.gifFiles.getD p.currentGifIndex "") 256) with
      | some (gifW, gifH) =>
        (drawFrame env p).1.gifOpen = true ∧
        (drawFrame env p).1.session =
          toCharArray (p.gifFiles.getD p.currentGifIndex "") 256 ∧
        (drawFrame env p).1.matrix =
          env.paint ((p.matrix.w - gifW).tdiv 2) ((p.matrix.h - gifH).tdiv 2)
            (p.matrix.fillScreen 0)
      | none =>
        (drawFrame env p).1.gifOpen = false ∧ (drawFrame env p).1.matrix = p.matrix ∧
        (drawFrame env p).2 = 100) := by
  unfold drawFrame
  simp only [hN, if_false, hopen, Bool.not_true, Bool.false_eq_true, GIF_PLAY_TIME, hT, if_true]
  unfold openNextGif
  simp only [hN, if_false, hopen, if_true]
  generalize env.gifOpenResult (toCharArray (p.gifFiles.getD p.currentGifIndex "") 256) = res
  cases res with
  | none => simp
  | some wh =>
    obtain ⟨gifW, gifH⟩ := wh
    by_cases hp : env.playFrame = 0 <;> simp [playOne, hp]

theorem drawFrame_timed_rotation_witness :
    (drawFrame (twoGifsEnv 9001) playingA).1.events =
      playingA.events ++ [GifEvent.close playingA.session] ++
        (match (twoGifsEnv 9001).gifOpenResult
            (toCharArray (playingA.gifFiles.getD playingA.currentGifIndex "") 256) with
          | some _ =>
            [GifEvent.openTry playingA.currentGifIndex
                (toCharArray (playingA.gifFiles.getD playingA.currentGifIndex "") 256) true,
              GifEvent.clear, GifEvent.play] ++
              (if (twoGifsEnv 9001).playFrame = 0 then [GifEvent.reset] else [])
          | none =>
            [GifEvent.openTry playingA.currentGifIndex
                (toCharArray (playingA.gifFiles.getD playingA.currentGifIndex "") 256) false]) ∧
    (match (twoGifsEnv 9001).gifOpenResult
        (toCharArray (playingA.gifFiles.getD playingA.currentGifIndex "") 256) with
      | some (gifW, gifH) =>
        (drawFrame (twoGifsEnv 9001) playingA).1.gifOpen = true ∧
        (drawFrame (twoGifsEnv 9001) playingA).1.session =
          toCharArray (playingA.gifFiles.getD playingA.currentGifIndex "") 256 ∧
        (drawFrame (twoGifsEnv 9001) playingA).1.matrix =
          (twoGifsEnv 9001).paint ((playingA.matrix.w - gifW).tdiv 2)
            ((playingA.matrix.h - gifH).tdiv 2) (playingA.matrix.fillScreen 0)
      | none =>
        (drawFrame (twoGifsEnv 9001) playingA).1.gifOpen = false ∧
        (drawFrame (twoGifsEnv 9001) playingA).1.matrix = playingA.matrix ∧
        (drawFrame (twoGifsEnv 9001) playingA).2 = 100) :=
  drawFrame_timed_rotation (twoGifsEnv 9001) playingA (by decide) (by decide) (by decide)


/-! ## Scaling in `camJpgOutput` -/

theorem camPixel_log (W H : Int) (blk : Block) (j i : Nat) (l : Leds) :
    (camPixel W H blk j i l).log = l.log ++ pixelStores W H blk j i := by
  unfold camPixel pixelStores scaled
  simp only
  split_ifs
  · rfl
  · simp

theorem camRow_log (W H : Int) (blk : Block) (j : Nat) (n : Nat) :
    ∀ (i : Nat) (l : Leds),
      (camRow W H blk j n i l).log =
        l.log ++ (List.range' i n).flatMap (pixelStores W H blk j) := by
  induction n with
  | zero => intro i l; simp [camRow]
  | succ n ih =>
    intro i l
    rw [camRow, ih, camPixel_log, List.range'_succ, List.flatMap_cons, List.append_assoc]

theorem camRows_log (W H : Int) (blk : Block) (n : Nat) :
    ∀ (j : Nat) (l : Leds),
      (camRows W H blk n j l).log =
        l.log ++ (List.range' j n).flatMap
          (fun j => (List.range' 0 blk.w).flatMap (pixelStores W H blk j)) := by
  induction n with
  | zero => intro j l; simp [camRows]
  | succ n ih =>
    intro j l
    rw [camRows, ih, camRow_log, List.range'_succ, List.flatMap_cons, List.append_assoc]

/-- An in-range source coordinate scales to an in-range panel coordinate. -/
theorem scale_in_range (s dim src : Int) (hd : 0 < dim) (hs0 : 0 ≤ s) (hs1 : s < src)
    (hsrc : 0 < src) : 0 ≤ (s * dim).tdiv src ∧ (s * dim).tdiv src < dim := by
  have h0 : 0 ≤ s * dim := Int.mul_nonneg hs0 (le_of_lt hd)
  rw [Int.tdiv_eq_ediv h0 (le_of_lt hsrc)]
  refine ⟨Int.ediv_nonneg h0 (le_of_lt hsrc), Int.ediv_lt_of_lt_mul hsrc ?_⟩
  rw [Int.mul_comm dim src]
  exact Int.mul_lt_mul_of_pos_right hs1 hd

/-- C8. Scaling in `camJpgOutput`: while decoding is active and the panel has positive width
and height, the callback returns `true`, and for every pixel `(i, j)` of the block whose source
coordinate `(sx, sy) = (x + i, y + j)` satisfies `0 ≤ sx < 320` and `0 ≤ sy < 240`, the cell
`(sx * VPANEL_W / 320, sy * VPANEL_H / 240)` (division truncating) lies inside the panel and the
call stores the unpacked colour of `bitmap[j * w + i]` at index `dstY * VPANEL_W + dstX`; on a
64 x 32 panel the source pixel `(160, 120)` goes to `(32, 16)`. -/
theorem camJpgOutput_scaling (VPANEL_W VPANEL_H : Int) (blk : Block) (l : Leds)
    (hW : 0 < VPANEL_W) (hH : 0 < VPANEL_H) :
    (camJpgOutput VPANEL_W VPANEL_H true blk l).1 = true ∧
    (∃ stores : List (Nat × CRGB),
      (camJpgOutput VPANEL_W VPANEL_H true blk l).2.log = l.log ++ stores ∧
      ∀ i j : Nat, i < blk.w → j < blk.h →
        0 ≤ blk.x + i → blk.x + i < 320 → 0 ≤ blk.y + j → blk.y + j < 240 →
        0 ≤ (scaled VPANEL_W VPANEL_H (blk.x + i) (blk.y + j)).1 ∧
        (scaled VPANEL_W VPANEL_H (blk.x + i) (blk.y + j)).1 < VPANEL_W ∧
        0 ≤ (scaled VPANEL_W VPANEL_H (blk.x + i) (blk.y + j)).2 ∧
        (scaled VPANEL_W VPANEL_H (blk.x + i) (blk.y + j)).2 < VPANEL_H ∧
        (((scaled VPANEL_W VPANEL_H (blk.x + i) (blk.y + j)).2 * VPANEL_W +
            (scaled VPANEL_W VPANEL_H (blk.x + i) (blk.y + j)).1).toNat,
          unpack565 (blk.bitmap.getD (j * blk.w + i) 0)) ∈ stores) ∧
    scaled 64 32 160 120 = (32, 16) ∧
    (∀ (c : Nat) (l0 : Leds),
      (camJpgOutput 64 32 true { x := 160, y := 120, w := 1, h := 1, bitmap := [c] } l0).2.log =
        l0.log ++ [(16 * 64 + 32, unpack565 c)]) := by
  refine ⟨rfl, ⟨_, camRows_log VPANEL_W VPANEL_H blk blk.h 0 l, ?_⟩, by decide, ?_⟩
  · intro i j hi hj hx0 hx1 hy0 hy1
    obtain ⟨a1, a2⟩ := scale_in_range (blk.x + i) VPANEL_W 320 hW hx0 hx1 (by decide)
    obtain ⟨b1, b2⟩ := scale_in_range (blk.y + j) VPANEL_H 240 hH hy0 hy1 (by decide)
    refine ⟨a1, a2, b1, b2, ?_⟩
    rw [List.mem_flatMap]
    refine ⟨j, List.mem_range'_1.mpr ⟨Nat.zero_le _, by omega⟩, ?_⟩
    rw [List.mem_flatMap]
    refine ⟨i, List.mem_range'_1.mpr ⟨Nat.zero_le _, by omega⟩, ?_⟩
    unfold pixelStores
    rw [if_pos ⟨a2, b2, a1, b1⟩]
    exact List.mem_singleton.mpr rfl
  · intro c l0
    have h := camRows_log 64 32 { x := 160, y := 120, w := 1, h := 1, bitmap := [c] } 1 0 l0
    simp only [camJpgOutput]
    rw [show (!true) = false from rfl]
    simp only [Bool.false_eq_true, if_false]
    rw [h]
    congr 1

theorem camJpgOutput_scaling_witness :
    (camJpgOutput 64 32 true block160 blackLeds).1 = true ∧
    (∃ stores : List (Nat × CRGB),
      (camJpgOutput 64 32 true block160 blackLeds).2.log = blackLeds.log ++ stores ∧
      ∀ i j : Nat, i < block160.w → j < block160.h →
        0 ≤ block160.x + i → block160.x + i < 320 → 0 ≤ block160.y + j → block160.y + j < 240 →
        0 ≤ (scaled 64 32 (block160.x + i) (block160.y + j)).1 ∧
        (scaled 64 32 (block160.x + i) (block160.y + j)).1 < 64 ∧
        0 ≤ (scaled 64 32 (block160.x + i) (block160.y + j)).2 ∧
        (scaled 64 32 (block160.x + i) (block160.y + j)).2 < 32 ∧
        (((scaled 64 32 (block160.x + i) (block160.y + j)).2 * 64 +
            (scaled 64 32 (block160.x + i) (block160.y + j)).1).toNat,
          unpack565 (block160.bitmap.getD (j * block160.w + i) 0)) ∈ stores) ∧
    scaled 64 32 160 120 = (32, 16) ∧
    (∀ (c : Nat) (l0 : Leds),
      (camJpgOutput 64 32 true { x := 160, y := 120, w := 1, h := 1, bitmap := [c] } l0).2.log =
        l0.log ++ [(16 * 64 + 32, unpack565 c)]) :=
  camJpgOutput_scaling 64 32 block160 blackLeds (by decide) (by decide)


/-! ## Content-Length framing in `captureFrame` -/

/-- A header without any `Content-Length:` line leaves `contentLength` as it was. -/
theorem readHeader_missing (lines : List String) (contentLength : Nat)
    (h : ∀ raw ∈ lines, startsWith (trim raw) "Content-Length:" = false) :
    readHeader lines contentLength = contentLength := by
  induction lines with
  | nil => rfl
  | cons raw rest ih =>
    unfold readHeader
    simp only [h raw (List.mem_cons_self _ _), Bool.false_eq_true, if_false]
    rw [ih (fun r hr => h r (List.mem_cons_of_mem _ hr))]
    simp

/-- C9. Content-Length framing in `captureFrame`: once the response has started, if the
Content-Length found in the header is zero (in particular when no header line carries one) or
greater than `jpegBufSize`, `captureFrame` closes the connection and returns `false`; nothing is
stored into the JPEG buffer and the panel buffer is untouched, since the state differs from the
one before the call only by the events connect, request, stop. -/
theorem captureFrame_bad_content_length (VPANEL_W VPANEL_H : Nat) (env : CamEnv) (c : Camera)
    (hbuf : c.jpegBufNull = false) (hinit : c.initialized = true)
    (hconn : env.connectOk = true)
    (hwait : waitResponse ((env.millisWait + 5000) % 4294967296) env.waitPolls = .ok true)
    (hbad : readHeader env.headerLines 0 = 0 ∨ readHeader env.headerLines 0 > c.jpegBufSize) :
    PatternCamera.captureFrame VPANEL_W VPANEL_H env c =
      .ok (false,
        { c with events := c.events ++ [CamEvent.connect true, CamEvent.request, CamEvent.stop] }) ∧
    ((∀ raw ∈ env.headerLines, startsWith (trim raw) "Content-Length:" = false) →
      readHeader env.headerLines 0 = 0) := by
  refine ⟨?_, readHeader_missing env.headerLines 0⟩
  unfold PatternCamera.captureFrame
  simp only [hbuf, hinit, hconn, hwait, hbad, Bool.false_eq_true, not_true_eq_false, or_self,
    if_false, if_true, List.append_assoc, List.cons_append, List.nil_append]

theorem captureFrame_bad_content_length_witness :
    PatternCamera.captureFrame 2 2
        (answering 1000 ["HTTP/1.1 200 OK\r", "Content-Length: 70000\r", "\r"] 0) showingFrame =
      .ok (false,
        { showingFrame with
          events := showingFrame.events ++
            [CamEvent.connect true, CamEvent.request, CamEvent.stop] }) ∧
    ((∀ raw ∈ (answering 1000 ["HTTP/1.1 200 OK\r", "Content-Length: 70000\r", "\r"] 0).headerLines,
        startsWith (trim raw) "Content-Length:" = false) →
      readHeader
        (answering 1000 ["HTTP/1.1 200 OK\r", "Content-Length: 70000\r", "\r"] 0).headerLines 0 =
        0) :=
  captureFrame_bad_content_length 2 2
    (answering 1000 ["HTTP/1.1 200 OK\r", "Content-Length: 70000\r", "\r"] 0) showingFrame
    rfl rfl rfl rfl (by decide)


/-! ## The payload read of `captureFrame` -/

theorem readPayload_done (contentLength timeout : Nat) (script : List (Nat × List Nat))
    (bytesRead : Nat) (buf : Nat → Nat) (h : contentLength ≤ bytesRead) :
    readPayload contentLength timeout script bytesRead buf = .ok (bytesRead, buf) := by
  have hn : ¬ bytesRead < contentLength := by omega
  cases script with
  | nil => simp only [readPayload, hn, if_false]
  | cons it rest =>
    obtain ⟨now, held⟩ := it
    simp only [readPayload, hn, false_and, if_false]

theorem getD_take_of_lt (l : List Nat) (n i : Nat) (h : i < n) :
    (l.take n).getD i 0 = l.getD i 0 := by
  simp only [List.getD_eq_getElem?_getD, List.getElem?_take_of_lt h]

/-- The read loop, given turns `pre` that all come before the deadline and together hold at
least the bytes still missing, stops with `bytesRead = contentLength`, having stored the bytes
held in those turns, in order, from offset `bytesRead` on, and nothing else. -/
theorem readPayload_delivers (contentLength timeout : Nat) (pre : List (Nat × List Nat)) :
    ∀ (post : List (Nat × List Nat)) (bytesRead : Nat) (buf : Nat → Nat),
      bytesRead ≤ contentLength → (∀ it ∈ pre, it.1 < timeout) →
      contentLength - bytesRead ≤ (pre.map fun it => it.2.length).sum →
      ∃ buf1 : Nat → Nat,
        readPayload contentLength timeout (pre ++ post) bytesRead buf = .ok (contentLength, buf1) ∧
        (∀ k, bytesRead ≤ k → k < contentLength →
          buf1 k = (pre.flatMap fun it => it.2).getD (k - bytesRead) 0) ∧
        (∀ k, k < bytesRead ∨ contentLength ≤ k → buf1 k = buf k) := by
  induction pre with
  | nil =>
    intro post bytesRead buf hle _ hsum
    simp only [List.map_nil, List.sum_nil] at hsum
    have he : bytesRead = contentLength := by omega
    refine ⟨buf, ?_, ?_, fun _ _ => rfl⟩
    · rw [List.nil_append, readPayload_done _ _ _ _ _ (by omega), he]
    · intro k h1 h2; omega
  | cons it pre ih =>
    intro post bytesRead buf hle htime hsum
    obtain ⟨now, held⟩ := it
    have hnow : now < timeout := htime (now, held) (List.mem_cons_self _ _)
    have htime1 : ∀ it ∈ pre, it.1 < timeout := fun it h => htime it (List.mem_cons_of_mem _ h)
    simp only [List.map_cons, List.sum_cons] at hsum
    by_cases hlt : bytesRead < contentLength
    swap
    · have he : bytesRead = contentLength := by omega
      refine ⟨buf, ?_, ?_, fun _ _ => rfl⟩
      · rw [readPayload_done _ _ _ _ _ (by omega), he]
      · intro k h1 h2; omega
    rw [List.cons_append]
    unfold readPayload
    simp only [hlt, hnow, and_self, if_true]
    by_cases hheld : held.length = 0
    · simp only [hheld, ne_eq, not_true_eq_false, if_false]
      obtain ⟨buf1, a1, a2, a3⟩ := ih post bytesRead buf hle htime1 (by omega)
      refine ⟨buf1, a1, ?_, a3⟩
      intro k h1 h2
      have hnil : held = [] := List.length_eq_zero.mp hheld
      rw [a2 k h1 h2, List.flatMap_cons, hnil, List.nil_append]
    · simp only [hheld, ne_eq, not_false_eq_true, if_true]
      have hdl : (held.take (min held.length (contentLength - bytesRead))).length =
          min held.length (contentLength - bytesRead) := by
        rw [List.length_take]; omega
      rw [hdl]
      obtain ⟨buf1, a1, a2, a3⟩ := ih post
        (bytesRead + min held.length (contentLength - bytesRead))
        (fun k => if bytesRead ≤ k ∧ k < bytesRead + min held.length (contentLength - bytesRead)
          then (held.take (min held.length (contentLength - bytesRead))).getD (k - bytesRead) 0
          else buf k)
        (by omega) htime1 (by omega)
      refine ⟨buf1, a1, ?_, ?_⟩
      · intro k h1 h2
        rw [List.flatMap_cons]
        dsimp only
        by_cases hk : k < bytesRead + min held.length (contentLength - bytesRead)
        · rw [a3 k (Or.inl hk)]
          simp only [h1, hk, and_self, if_true]
          rw [getD_take_of_lt _ _ _ (by omega), List.getD_append _ _ _ _ (by omega)]
        · have hmin : min held.length (contentLength - bytesRead) = held.length := by omega
          rw [hmin] at hk a2
          rw [a2 k (by omega) h2, List.getD_append_right _ _ _ _ (by omega)]
          congr 1
          omega
      · intro k hk
        rw [a3 k (by omega)]
        exact if_neg (by omega)


/-- C10, as stated, fails: the header announces 5 bytes, which fit the buffer, and the client
holds them well before the deadline; `captureFrame` stores the 5 bytes but the decoder rejects
them, and `captureFrame` returns `false`. -/
theorem captureFrame_complete_read_fails :
    readHeader (answering 1000 header5 1).headerLines 0 = 5 ∧
    5 ≤ showingFrame.jpegBufSize ∧
    (∀ it ∈ (answering 1000 header5 1).reads,
      it.1 < ((answering 1000 header5 1).millisRead + 5000) % 4294967296) ∧
    5 ≤ ((answering 1000 header5 1).reads.map fun it => it.2.length).sum ∧
    (PatternCamera.captureFrame 2 2 (answering 1000 header5 1) showingFrame).toOption.map
      (fun r => (r.1, r.2.stored)) = some (false, 5) := by
  decide

/-- C10, amended. Payload read in `captureFrame`: once the response has started with a
Content-Length `n`, `0 < n ≤ jpegBufSize`, if the turns `pre` of the read loop all come before the
deadline and the client holds at least `n` bytes over them, `captureFrame` stores exactly the
first `n` of those bytes at the offsets `0 .. n - 1` of the buffer, leaves the rest of the buffer
alone, closes the connection, hands exactly `n` bytes to the decoder, and returns `true` exactly
when the decoder returns `JDR_OK`. -/
theorem captureFrame_payload_read (VPANEL_W VPANEL_H : Nat) (env : CamEnv) (c : Camera)
    (pre post : List (Nat × List Nat))
    (hbuf : c.jpegBufNull = false) (hinit : c.initialized = true)
    (hconn : env.connectOk = true)
    (hwait : waitResponse ((env.millisWait + 5000) % 4294967296) env.waitPolls = .ok true)
    (hlen : 0 < readHeader env.headerLines 0 ∧ readHeader env.headerLines 0 ≤ c.jpegBufSize)
    (hsplit : env.reads = pre ++ post)
    (htime : ∀ it ∈ pre, it.1 < (env.millisRead + 5000) % 4294967296)
    (hbytes : readHeader env.headerLines 0 ≤ (pre.map fun it => it.2.length).sum) :
    ∃ c1 : Camera,
      PatternCamera.captureFrame VPANEL_W VPANEL_H env c =
        .ok (decide ((env.decode c1.jpegBuf (readHeader env.headerLines 0)).2 = 0), c1) ∧
      c1.stored = c.stored + readHeader env.headerLines 0 ∧
      (∀ k, k < readHeader env.headerLines 0 →
        c1.jpegBuf k = (pre.flatMap fun it => it.2).getD k 0) ∧
      (∀ k, readHeader env.headerLines 0 ≤ k → c1.jpegBuf k = c.jpegBuf k) ∧
      c1.events = c.events ++
        [CamEvent.connect true, CamEvent.request, CamEvent.stop,
          CamEvent.decode (readHeader env.headerLines 0)
            (env.decode c1.jpegBuf (readHeader env.headerLines 0)).2] := by
  obtain ⟨buf1, a1, a2, a3⟩ :=
    readPayload_delivers (readHeader env.headerLines 0) ((env.millisRead + 5000) % 4294967296)
      pre post 0 c.jpegBuf (Nat.zero_le _) htime (by omega)
  have hgood : ¬ (readHeader env.headerLines 0 = 0 ∨
      readHeader env.headerLines 0 > c.jpegBufSize) := by omega
  unfold PatternCamera.captureFrame
  simp only [hbuf, hinit, hconn, hwait, hgood, hsplit, a1, Bool.false_eq_true,
    not_true_eq_false, or_self, if_false, lt_irrefl]
  refine ⟨{ lastFrame := c.lastFrame, frameInterval := c.frameInterval, jpegBufNull := false,
             jpegBuf := buf1, jpegBufSize := c.jpegBufSize, initialized := true,
             consecutiveErrors := c.consecutiveErrors, hasValidFrame := c.hasValidFrame,
             camDecoding := false, offset := c.offset,
             leds := outputBlocks VPANEL_W VPANEL_H true
               (env.decode buf1 (readHeader env.headerLines 0)).1
               (clearLeds (VPANEL_W * VPANEL_H) 0 c.leds),
             stored := c.stored + readHeader env.headerLines 0,
             events := c.events ++ [CamEvent.connect true, CamEvent.request] ++ [CamEvent.stop] ++
               [CamEvent.decode (readHeader env.headerLines 0)
                 (env.decode buf1 (readHeader env.headerLines 0)).2] }, ?_, rfl, ?_, ?_, ?_⟩
  · by_cases hres : (env.decode buf1 (readHeader env.headerLines 0)).2 = 0
    · simp only [hres, ne_eq, not_true_eq_false, if_false, decide_True]
    · simp only [hres, ne_eq, not_false_eq_true, if_true, decide_False]
  · intro k hk
    exact a2 k (Nat.zero_le _) hk
  · intro k hk
    exact a3 k (Or.inr hk)
  · simp

theorem captureFrame_payload_read_witness :
    ∃ c1 : Camera,
      PatternCamera.captureFrame 2 2 (answering 1000 header5 0) showingFrame =
        .ok (decide (((answering 1000 header5 0).decode c1.jpegBuf
          (readHeader (answering 1000 header5 0).headerLines 0)).2 = 0), c1) ∧
      c1.stored = showingFrame.stored + readHeader (answering 1000 header5 0).headerLines 0 ∧
      (∀ k, k < readHeader (answering 1000 header5 0).headerLines 0 →
        c1.jpegBuf k =
          ([(1031, [1, 2, 3]), (1032, []), (1033, [4, 5, 6, 7])].flatMap
            fun it : Nat × List Nat => it.2).getD k 0) ∧
      (∀ k, readHeader (answering 1000 header5 0).headerLines 0 ≤ k →
        c1.jpegBuf k = showingFrame.jpegBuf k) ∧
      c1.events = showingFrame.events ++
        [CamEvent.connect true, CamEvent.request, CamEvent.stop,
          CamEvent.decode (readHeader (answering 1000 header5 0).headerLines 0)
            ((answering 1000 header5 0).decode c1.jpegBuf
              (readHeader (answering 1000 header5 0).headerLines 0)).2] :=
  captureFrame_payload_read 2 2 (answering 1000 header5 0) showingFrame
    [(1031, [1, 2, 3]), (1032, []), (1033, [4, 5, 6, 7])] [] rfl rfl rfl rfl (by decide) rfl
    (by decide) (by decide)


/-! ## The failure policy of the camera `drawFrame` -/

theorem captureTrace_append (l₁ l₂ : List CamEvent) :
    captureTrace (l₁ ++ l₂) = captureTrace l₁ ++ captureTrace l₂ := by
  induction l₁ with
  | nil => rfl
  | cons e l ih => cases e <;> simp [captureTrace, ih]

/-- What `captureFrame` leaves alone: the failure counter, the valid-frame flag, the phase of
the error pattern, and the trace of captures; and the panel buffer unless the decoder ran. -/
theorem captureFrame_frame (W H : Nat) (env : CamEnv) (c c1 : Camera) (b : Bool)
    (h : PatternCamera.captureFrame W H env c = .ok (b, c1)) :
    c1.consecutiveErrors = c.consecutiveErrors ∧ c1.hasValidFrame = c.hasValidFrame ∧
    c1.offset = c.offset ∧ captureTrace c1.events = captureTrace c.events ∧
    (c1.leds = c.leds ∨ ∃ n r, c1.events =
      c.events ++ [CamEvent.connect true, CamEvent.request, CamEvent.stop, CamEvent.decode n r]) := by
  unfold PatternCamera.captureFrame at h
  by_cases h1 : c.jpegBufNull = true ∨ ¬ c.initialized = true
  · rw [if_pos h1] at h
    simp only [Except.ok.injEq, Prod.mk.injEq] at h
    obtain ⟨_, rfl⟩ := h
    simp
  rw [if_neg h1] at h
  by_cases h2 : ¬ env.connectOk = true
  · rw [if_pos h2] at h
    simp only [Except.ok.injEq, Prod.mk.injEq] at h
    obtain ⟨_, rfl⟩ := h
    simp [captureTrace_append, captureTrace]
  rw [if_neg h2] at h
  dsimp only at h
  cases hw : waitResponse ((env.millisWait + 5000) % 4294967296) env.waitPolls with
  | error e => rw [hw] at h; cases h
  | ok ready =>
    rw [hw] at h
    cases ready with
    | false =>
      simp only [Except.ok.injEq, Prod.mk.injEq] at h
      obtain ⟨_, rfl⟩ := h
      simp [captureTrace_append, captureTrace]
    | true =>
      dsimp only at h
      by_cases h3 : readHeader env.headerLines 0 = 0 ∨ readHeader env.headerLines 0 > c.jpegBufSize
      · rw [if_pos h3] at h
        simp only [Except.ok.injEq, Prod.mk.injEq] at h
        obtain ⟨_, rfl⟩ := h
        simp [captureTrace_append, captureTrace]
      rw [if_neg h3] at h
      cases hr : readPayload (readHeader env.headerLines 0)
          ((env.millisRead + 5000) % 4294967296) env.reads 0 c.jpegBuf with
      | error e => rw [hr] at h; cases h
      | ok res =>
        obtain ⟨bytesRead, buf⟩ := res
        rw [hr] at h
        dsimp only at h
        by_cases h4 : bytesRead < readHeader env.headerLines 0
        · rw [if_pos h4] at h
          simp only [Except.ok.injEq, Prod.mk.injEq] at h
          obtain ⟨_, rfl⟩ := h
          simp [captureTrace_append, captureTrace]
        rw [if_neg h4] at h
        by_cases h5 : (env.decode buf bytesRead).2 ≠ 0
        · rw [if_pos h5] at h
          simp only [Except.ok.injEq, Prod.mk.injEq] at h
          obtain ⟨_, rfl⟩ := h
          simp [captureTrace_append, captureTrace]
        · rw [if_neg h5] at h
          simp only [Except.ok.injEq, Prod.mk.injEq] at h
          obtain ⟨_, rfl⟩ := h
          simp [captureTrace_append, captureTrace]


/-- Lines 197-207: the counter, the flag and the trace after the return of `captureFrame`. -/
theorem afterCapture_spec (W H : Nat) (b : Bool) (c : Camera) :
    (PatternCamera.afterCapture W H b c).consecutiveErrors =
      (if b = true then 0 else c.consecutiveErrors + 1) ∧
    (PatternCamera.afterCapture W H b c).hasValidFrame = (b || c.hasValidFrame) ∧
    captureTrace (PatternCamera.afterCapture W H b c).events =
      captureTrace c.events ++ some b ::
        (if b = false ∧ (c.consecutiveErrors + 1 > 5 ∨ c.hasValidFrame = false) then [none]
         else []) := by
  unfold PatternCamera.afterCapture
  cases b with
  | true => simp [captureTrace_append, captureTrace]
  | false =>
    by_cases hc : c.consecutiveErrors + 1 > 5 ∨ c.hasValidFrame = false
    · have hc1 : c.consecutiveErrors + 1 > 5 ∨ ¬ c.hasValidFrame = true := by
        rcases hc with h | h
        · exact Or.inl h
        · exact Or.inr (by simp [h])
      simp only [Bool.false_eq_true, if_false, hc1, if_true, hc, and_self, Bool.false_or]
      simp [PatternCamera.showError, captureTrace_append, captureTrace]
    · have hc1 : ¬ (c.consecutiveErrors + 1 > 5 ∨ ¬ c.hasValidFrame = true) := by
        intro h
        apply hc
        rcases h with h | h
        · exact Or.inl h
        · exact Or.inr (by simpa using h)
      simp only [Bool.false_eq_true, if_false, hc1, hc, and_false, Bool.false_or]
      simp [captureTrace_append, captureTrace]

/-- One tick of the camera `drawFrame`: it returns 0, and either makes no capture, or a
successful one, or a failed one. -/
theorem drawFrame_tick (W H : Nat) (env : CamEnv) (c c2 : Camera) (n : Nat)
    (h : PatternCamera.drawFrame W H env c = .ok (n, c2)) :
    n = 0 ∧
    ((c2.consecutiveErrors = c.consecutiveErrors ∧ c2.hasValidFrame = c.hasValidFrame ∧
        captureTrace c2.events = captureTrace c.events) ∨
      (c2.consecutiveErrors = 0 ∧ c2.hasValidFrame = true ∧
        captureTrace c2.events = captureTrace c.events ++ [some true]) ∨
      (c2.consecutiveErrors = c.consecutiveErrors + 1 ∧ c2.hasValidFrame = c.hasValidFrame ∧
        captureTrace c2.events = captureTrace c.events ++ some false ::
          (if c.consecutiveErrors + 1 > 5 ∨ c.hasValidFrame = false then [none] else []))) := by
  unfold PatternCamera.drawFrame at h
  dsimp only at h
  split at h
  · cases hcap : PatternCamera.captureFrame W H env { c with lastFrame := env.millisTick } with
    | error e => rw [hcap] at h; cases h
    | ok res =>
      obtain ⟨b, c1⟩ := res
      rw [hcap] at h
      simp only [Except.ok.injEq, Prod.mk.injEq] at h
      obtain ⟨rfl, rfl⟩ := h
      obtain ⟨f1, f2, _, f4, _⟩ := captureFrame_frame W H env _ c1 b hcap
      obtain ⟨g1, g2, g3⟩ := afterCapture_spec W H b c1
      simp only at f1 f2 f4
      refine ⟨rfl, ?_⟩
      cases b with
      | true =>
        right; left
        refine ⟨by simpa using g1, by simpa using g2, ?_⟩
        simp only [captureTrace_append, g3, f4]
        simp [captureTrace]
      | false =>
        right; right
        refine ⟨by simpa [f1] using g1, by simpa [f2] using g2, ?_⟩
        simp only [captureTrace_append, g3, f4, f1, f2]
        simp [captureTrace]
  · simp only [Except.ok.injEq, Prod.mk.injEq] at h
    obtain ⟨rfl, rfl⟩ := h
    refine ⟨rfl, Or.inl ⟨rfl, rfl, ?_⟩⟩
    simp [captureTrace_append, captureTrace]


/-- A run of ticks begun with a valid frame on the panel: if all its captures failed, `n` of
them, its trace is the one of `n` failures in a row and the counter has grown by `n`. -/
theorem drawFrames_failures (W H : Nat) (envs : List CamEnv) :
    ∀ c c1 : Camera, c.hasValidFrame = true →
      PatternCamera.drawFrames W H envs c = .ok c1 →
      ∃ t : List (Option Bool), captureTrace c1.events = captureTrace c.events ++ t ∧
        ∀ n : Nat, t.filterMap id = List.replicate n false →
          t = failureTrace c.consecutiveErrors n ∧
          c1.consecutiveErrors = c.consecutiveErrors + n := by
  induction envs with
  | nil =>
    intro c c1 _ h
    simp only [PatternCamera.drawFrames, Except.ok.injEq] at h
    subst h
    refine ⟨[], by simp, ?_⟩
    intro n hn
    cases n with
    | zero => simp [failureTrace]
    | succ n => simp [List.replicate_succ] at hn
  | cons env rest ih =>
    intro c c1 hv h
    unfold PatternCamera.drawFrames at h
    cases hd : PatternCamera.drawFrame W H env c with
    | error e => rw [hd] at h; cases h
    | ok res =>
      obtain ⟨n0, cm⟩ := res
      rw [hd] at h
      dsimp only at h
      obtain ⟨_, hcase⟩ := drawFrame_tick W H env c cm n0 hd
      rcases hcase with ⟨a1, a2, a3⟩ | ⟨a1, a2, a3⟩ | ⟨a1, a2, a3⟩
      · obtain ⟨t, b1, b2⟩ := ih cm c1 (by rw [a2]; exact hv) h
        refine ⟨t, by rw [b1, a3], ?_⟩
        intro n hn
        rw [← a1]
        exact b2 n hn
      · obtain ⟨t, b1, _⟩ := ih cm c1 a2 h
        refine ⟨some true :: t, by rw [b1, a3]; simp, ?_⟩
        intro n hn
        cases n with
        | zero => simp at hn
        | succ n => simp [List.replicate_succ] at hn
      · obtain ⟨t, b1, b2⟩ := ih cm c1 (by rw [a2]; exact hv) h
        have hex : (if c.consecutiveErrors + 1 > 5 ∨ c.hasValidFrame = false
            then [none] else [] : List (Option Bool)) =
            (if c.consecutiveErrors + 1 > 5 then [none] else []) := by
          simp [hv]
        rw [hex] at a3
        refine ⟨some false :: ((if c.consecutiveErrors + 1 > 5 then [none] else []) ++ t),
          by rw [b1, a3]; simp, ?_⟩
        intro n hn
        have hfm : (some false :: ((if c.consecutiveErrors + 1 > 5 then [none] else []) ++ t)
            ).filterMap id = false :: t.filterMap id := by
          by_cases hk : c.consecutiveErrors + 1 > 5 <;> simp [hk]
        rw [hfm] at hn
        cases n with
        | zero => simp at hn
        | succ n =>
          rw [List.replicate_succ] at hn
          obtain ⟨d1, d2⟩ := b2 n (List.cons.inj hn).2
          rw [a1] at d1 d2
          refine ⟨?_, ?_⟩
          · rw [failureTrace, ← d1]
          · rw [d2]; push_cast; ring

/-- C5. Failure threshold in the camera `drawFrame`. On a tick that is due and whose capture
returns `ok`, `drawFrame` returns 0; a failure adds one to the counter and `showError` is called
if and only if the new counter is greater than 5 or no valid frame was ever captured; a success
sets the counter to 0 and the valid-frame flag. And a run of ticks begun with a valid frame and
counter 0, whose captures are six failures, draws no error pattern after the failures 1 to 5
and draws it after failure 6. -/
theorem drawFrame_failure_threshold (VPANEL_W VPANEL_H : Nat) (env : CamEnv) (c c1 : Camera)
    (ok : Bool) (envs : List CamEnv) (c0 : Camera) (trace : List (Option Bool))
    (hdue : ((env.millisTick : Int) - (c.lastFrame : Int)) % 4294967296 ≥
      c.frameInterval % 4294967296)
    (hcap : PatternCamera.captureFrame VPANEL_W VPANEL_H env
      { c with lastFrame := env.millisTick } = .ok (ok, c1))
    (hvalid : c0.hasValidFrame = true) (hzero : c0.consecutiveErrors = 0)
    (hrun : runTrace VPANEL_W VPANEL_H envs c0 = some trace)
    (hfail : (trace.drop (captureTrace c0.events).length).filterMap id =
      List.replicate 6 false) :
    (∃ c2 : Camera, PatternCamera.drawFrame VPANEL_W VPANEL_H env c = .ok (0, c2) ∧
      c2.consecutiveErrors = (if ok = true then 0 else c.consecutiveErrors + 1) ∧
      c2.hasValidFrame = (ok || c.hasValidFrame) ∧
      captureTrace c2.events = captureTrace c.events ++ some ok ::
        (if ok = false ∧ (c.consecutiveErrors + 1 > 5 ∨ c.hasValidFrame = false) then [none]
         else [])) ∧
    trace = captureTrace c0.events ++
      [some false, some false, some false, some false, some false, some false, none] := by
  constructor
  · obtain ⟨f1, f2, _, f4, _⟩ := captureFrame_frame VPANEL_W VPANEL_H env _ c1 ok hcap
    obtain ⟨g1, g2, g3⟩ := afterCapture_spec VPANEL_W VPANEL_H ok c1
    simp only at f1 f2 f4
    refine ⟨{ PatternCamera.afterCapture VPANEL_W VPANEL_H ok c1 with
              events := (PatternCamera.afterCapture VPANEL_W VPANEL_H ok c1).events ++
                [CamEvent.showFrame] }, ?_, ?_, ?_, ?_⟩
    · unfold PatternCamera.drawFrame
      simp only [hdue, if_true, hcap]
    · simpa [f1] using g1
    · simpa [f2] using g2
    · simp only [captureTrace_append, g3, f4, f1, f2]
      simp [captureTrace]
  · unfold runTrace at hrun
    cases hd : PatternCamera.drawFrames VPANEL_W VPANEL_H envs c0 with
    | error e => rw [hd] at hrun; cases hrun
    | ok c6 =>
      rw [hd] at hrun
      simp only [Option.some.injEq] at hrun
      obtain ⟨t, b1, b2⟩ := drawFrames_failures VPANEL_W VPANEL_H envs c0 c6 hvalid hd
      rw [← hrun, b1, List.drop_left] at hfail
      obtain ⟨d1, _⟩ := b2 6 hfail
      rw [← hrun, b1, d1, hzero]
      rfl


theorem drawFrame_failure_threshold_witness :
    (∃ c2 : Camera, PatternCamera.drawFrame 2 2 (unreachable 1000) showingFrame = .ok (0, c2) ∧
      c2.consecutiveErrors =
        (if false = true then 0 else showingFrame.consecutiveErrors + 1) ∧
      c2.hasValidFrame = (false || showingFrame.hasValidFrame) ∧
      captureTrace c2.events = captureTrace showingFrame.events ++ some false ::
        (if false = false ∧
            (showingFrame.consecutiveErrors + 1 > 5 ∨ showingFrame.hasValidFrame = false)
          then [none] else [])) ∧
    [some false, some false, some false, some false, some false, some false, none] =
      captureTrace showingFrame.events ++
        [some false, some false, some false, some false, some false, some false, none] :=
  drawFrame_failure_threshold 2 2 (unreachable 1000) showingFrame
    { showingFrame with
      lastFrame := 1000, events := showingFrame.events ++ [CamEvent.connect false] }
    false sixUnreachable showingFrame
    [some false, some false, some false, some false, some false, some false, none]
    (by decide) rfl rfl rfl (by decide) (by decide)

/-! ## Stale-frame retention in the camera `drawFrame` -/

/-- C4 at a failing input: a valid frame (grey) is on the panel and the counter is 0; the
payload is read completely but the decoder rejects it. After the tick the counter is 1, no
error pattern was drawn, and cell 0 of the panel buffer is black instead of grey: the last
valid frame is gone. -/
theorem drawFrame_decode_failure_blanks :
    showingFrame.hasValidFrame = true ∧ showingFrame.consecutiveErrors = 0 ∧
    showingFrame.leds.cells 0 = { r := 9, g := 9, b := 9 } ∧
    (PatternCamera.drawFrame 2 2 (answering 1000 header5 1) showingFrame).toOption.map
      (fun r => (r.2.consecutiveErrors, captureTrace r.2.events, r.2.leds.cells 0)) =
      some (1, [some false], CRGB.Black) := by
  decide

/-- The failures that happen before the decoder runs do keep the panel: a tick whose capture
fails without a call of the decoder, with a valid frame shown and the new counter at most 5,
leaves every cell of the panel buffer as it was. -/
theorem drawFrame_keeps_frame_before_decode (VPANEL_W VPANEL_H : Nat) (env : CamEnv)
    (c c1 : Camera)
    (hcap : PatternCamera.captureFrame VPANEL_W VPANEL_H env
      { c with lastFrame := env.millisTick } = .ok (false, c1))
    (hno : ∀ n r, CamEvent.decode n r ∉ c1.events)
    (hvalid : c.hasValidFrame = true) (hcount : c.consecutiveErrors + 1 ≤ 5) :
    ∃ c2 : Camera, PatternCamera.drawFrame VPANEL_W VPANEL_H env c = .ok (0, c2) ∧
      c2.leds = c.leds := by
  obtain ⟨f1, f2, _, _, f5⟩ := captureFrame_frame VPANEL_W VPANEL_H env _ c1 false hcap
  simp only at f1 f2 f5
  have hleds : c1.leds = c.leds := by
    rcases f5 with h | ⟨n, r, h⟩
    · exact h
    · exact absurd (by rw [h]; simp) (hno n r)
  have hc : ¬ (c1.consecutiveErrors + 1 > 5 ∨ ¬ c1.hasValidFrame = true) := by
    rw [f1, f2, hvalid]
    intro h
    rcases h with h | h
    · omega
    · exact h rfl
  by_cases hdue : ((env.millisTick : Int) - (c.lastFrame : Int)) % 4294967296 ≥
      c.frameInterval % 4294967296
  · refine ⟨{ PatternCamera.afterCapture VPANEL_W VPANEL_H false c1 with
              events := (PatternCamera.afterCapture VPANEL_W VPANEL_H false c1).events ++
                [CamEvent.showFrame] }, ?_, ?_⟩
    · unfold PatternCamera.drawFrame
      simp only [hdue, if_true, hcap]
    · simp only [PatternCamera.afterCapture, Bool.false_eq_true, if_false, hc]
      exact hleds
  · refine ⟨{ c with events := c.events ++ [CamEvent.showFrame] }, ?_, rfl⟩
    unfold PatternCamera.drawFrame
    simp only [hdue, if_false]


/-! ## Vertical culling in `GIFDraw` -/

/-- C11. Vertical culling in `GIFDraw`: when the panel row `iY + y + gifOffsetY` of the scan
line is negative or at least the panel height, the call returns at once: the panel (cells and
list of `drawPixel` calls), the whole `GIFDRAW` record (scan-line buffer and transparency flag
included) are unchanged, whatever the disposal method and the transparency setting. -/
theorem GIFDraw_vertical_culling (gifOffsetX gifOffsetY : Int) (usTemp0 : Nat → Nat)
    (m : Matrix) (p : GIFDRAW)
    (hrow : p.iY + p.y + gifOffsetY < 0 ∨ p.iY + p.y + gifOffsetY ≥ m.h) :
    GIFDraw gifOffsetX gifOffsetY usTemp0 m p = .ok { m := m, p := p, lookups := 0 } := by
  unfold GIFDraw
  simp only [hrow, if_true]

theorem GIFDraw_vertical_culling_witness :
    GIFDraw 1 5 (fun _ => 0) panel4x2 (line6 1 2) =
      .ok { m := panel4x2, p := line6 1 2, lookups := 0 } :=
  GIFDraw_vertical_culling 1 5 (fun _ => 0) panel4x2 (line6 1 2) (by decide)

/-! ## Horizontal clipping in `GIFDraw` -/

/-- C12, as stated, fails on the transparent path: on a 4-wide panel with offset 0, the six-pixel
line has only two opaque pixels whose column is on the panel (columns 0 and 1), yet the call
looks up the palette four times: the opaque pixels of the columns 4 and 5 are read and
translated although `6 + 0 > 4`. -/
theorem GIFDraw_translates_off_panel :
    (line6 1 0).iWidth + 0 > panel4x2.w ∧
    ((List.range 6).filter fun x =>
      opaqueAt (line6 1 0) x && decide ((x : Int) + 0 < panel4x2.w)).length = 2 ∧
    (GIFDraw 0 0 (fun _ => 0) panel4x2 (line6 1 0)).toOption.map (fun r => r.lookups) =
      some 4 := by
  decide

theorem mem_lineWrites_column (p : GIFDRAW) (o y w : Int) (keep : Nat → Bool) (a n : Nat)
    (e : Int × Int × Nat) (h : e ∈ lineWrites p o y w keep a n) : 0 ≤ e.1 ∧ e.1 < w := by
  obtain ⟨x, _, _, _, h4, h5, he⟩ := (mem_lineWrites p o y w keep a n e).mp h
  rw [he]
  exact ⟨h4, h5⟩

/-- The scan-line buffer left by `GIFDraw` on a visible line with disposal method 2. -/
theorem GIFDraw_dispose_pixels (o oy : Int) (u0 : Nat → Nat) (m : Matrix) (p : GIFDRAW)
    (r : DrawResult) (hD : p.ucDisposalMethod = 2)
    (hrow : 0 ≤ p.iY + p.y + oy ∧ p.iY + p.y + oy < m.h)
    (h : GIFDraw o oy u0 m p = .ok r) :
    r.p.pPixels = disposeLoop p.ucTransparent p.ucBackground
      (if p.iWidth + o > m.w then m.w - o else p.iWidth).toNat 0 p.pPixels := by
  have hv : ¬ (p.iY + p.y + oy < 0 ∨ p.iY + p.y + oy ≥ m.h) := by omega
  unfold GIFDraw at h
  simp only [hv, if_false, hD, if_true, ne_eq, not_true_eq_false, opaqueLoop_full,
    Except.ok.injEq] at h
  rw [← h]

/-- C12, amended. Horizontal clipping in `GIFDraw`: on every scan line (of width at most 320
when it takes the transparent path) the call succeeds; every `drawPixel` call it makes has its
column inside `[0, width)`, on all three paths; the disposal-2 rewrite uses the clipped width,
so that no scan-line entry whose panel column is at or beyond the panel width is rewritten;
the transparent path, on a visible line, still translates every opaque pixel of the full line
`iWidth`. -/
theorem GIFDraw_horizontal_clipping (gifOffsetX gifOffsetY : Int) (usTemp0 : Nat → Nat)
    (m : Matrix) (p : GIFDRAW)
    (hw : p.ucHasTransparency ≠ 0 → p.ucDisposalMethod ≠ 2 → p.iWidth ≤ 320) :
    ∃ (r : DrawResult) (written : List (Int × Int × Nat)),
      GIFDraw gifOffsetX gifOffsetY usTemp0 m p = .ok r ∧
      r.m.log = m.log ++ written ∧
      (∀ e ∈ written, 0 ≤ e.1 ∧ e.1 < m.w) ∧
      (∀ x : Nat, m.w ≤ (x : Int) + gifOffsetX → r.p.pPixels.getD x 0 = p.pPixels.getD x 0) ∧
      (p.ucHasTransparency ≠ 0 → p.ucDisposalMethod ≠ 2 →
        0 ≤ p.iY + p.y + gifOffsetY → p.iY + p.y + gifOffsetY < m.h →
        r.lookups = p.iWidth.toNat - countEq p.pPixels p.ucTransparent 0 p.iWidth.toNat) := by
  by_cases hrow : p.iY + p.y + gifOffsetY < 0 ∨ p.iY + p.y + gifOffsetY ≥ m.h
  · refine ⟨_, [], GIFDraw_vertical_culling gifOffsetX gifOffsetY usTemp0 m p hrow, by simp,
      by simp, fun _ _ => rfl, ?_⟩
    intro _ _ h1 h2
    omega
  have hvis : 0 ≤ p.iY + p.y + gifOffsetY ∧ p.iY + p.y + gifOffsetY < m.h := by omega
  by_cases hD : p.ucDisposalMethod = 2
  · obtain ⟨r, h1, _, h3⟩ := GIFDraw_dispose_eq gifOffsetX gifOffsetY usTemp0 m p hD hvis
    have hpix := GIFDraw_dispose_pixels gifOffsetX gifOffsetY usTemp0 m p r hD hvis h1
    refine ⟨r, _, h1, by rw [h3, Matrix.draws_log],
      fun e he => mem_lineWrites_column _ _ _ _ _ _ _ e he, ?_, fun _ h => absurd hD h⟩
    intro x hx
    rw [hpix, disposeLoop_getD, if_neg]
    rintro ⟨_, h2, _, _⟩
    split_ifs at h2 <;> omega
  by_cases hT : p.ucHasTransparency = 0
  · have h1 := GIFDraw_opaque_eq gifOffsetX gifOffsetY usTemp0 m p hT hD hvis
    refine ⟨_, _, h1, by rw [Matrix.draws_log],
      fun e he => mem_lineWrites_column _ _ _ _ _ _ _ e he, fun _ _ => rfl,
      fun h => absurd hT h⟩
  · obtain ⟨r, h1, h2, h3, h4⟩ :=
      GIFDraw_transparent_eq gifOffsetX gifOffsetY usTemp0 m p hT hD (hw hT hD) hvis
    refine ⟨r, _, h1, by rw [h3, Matrix.draws_log],
      fun e he => mem_lineWrites_column _ _ _ _ _ _ _ e he, fun _ _ => by rw [h2], ?_⟩
    intro _ _ _ _
    omega

theorem GIFDraw_horizontal_clipping_witness :
    ∃ (r : DrawResult) (written : List (Int × Int × Nat)),
      GIFDraw 0 0 (fun _ => 0) panel4x2 (line6 1 0) = .ok r ∧
      r.m.log = panel4x2.log ++ written ∧
      (∀ e ∈ written, 0 ≤ e.1 ∧ e.1 < panel4x2.w) ∧
      (∀ x : Nat, panel4x2.w ≤ (x : Int) + 0 →
        r.p.pPixels.getD x 0 = (line6 1 0).pPixels.getD x 0) ∧
      ((line6 1 0).ucHasTransparency ≠ 0 → (line6 1 0).ucDisposalMethod ≠ 2 →
        0 ≤ (line6 1 0).iY + (line6 1 0).y + 0 →
        (line6 1 0).iY + (line6 1 0).y + 0 < panel4x2.h →
        r.lookups = (line6 1 0).iWidth.toNat -
          countEq (line6 1 0).pPixels (line6 1 0).ucTransparent 0 (line6 1 0).iWidth.toNat) :=
  GIFDraw_horizontal_clipping 0 0 (fun _ => 0) panel4x2 (line6 1 0) (fun _ _ => by decide)


/-! ## Successful and failed rotation in `openNextGif` -/

theorem sessionsOpen_append (l₁ l₂ : List GifEvent) :
    sessionsOpen (l₁ ++ l₂) = l₂.foldl sessionStep (sessionsOpen l₁) := by
  simp [sessionsOpen, List.foldl_append]

/-- The state left by `openNextGif` when the open succeeds with canvas `gifW` x `gifH`. -/
theorem openNextGif_ok_eq (env : GifEnv) (now : Nat) (p : Player) (gifW gifH : Int)
    (hN : p.gifFiles.length ≠ 0)
    (hres : env.gifOpenResult (toCharArray (p.gifFiles.getD p.currentGifIndex "") 256) =
      some (gifW, gifH)) :
    openNextGif env now p =
      { p with
        gifOpen := true
        gifStartTime := now
        gifOffsetX := (p.matrix.w - gifW).tdiv 2
        gifOffsetY := (p.matrix.h - gifH).tdiv 2
        matrix := p.matrix.fillScreen 0
        session := toCharArray (p.gifFiles.getD p.currentGifIndex "") 256
        events := p.events ++ (if p.gifOpen = true then [GifEvent.close p.session] else []) ++
          [GifEvent.openTry p.currentGifIndex
            (toCharArray (p.gifFiles.getD p.currentGifIndex "") 256) true, GifEvent.clear]
        currentGifIndex := (p.currentGifIndex + 1) % p.gifFiles.length } := by
  unfold openNextGif
  simp only [hN, if_false]
  cases hopen : p.gifOpen
  · simp only [Bool.false_eq_true, if_false, hres, List.append_nil]
  · simp only [if_true, hres]

/-- The state left by `openNextGif` when the open fails. -/
theorem openNextGif_fail_eq (env : GifEnv) (now : Nat) (p : Player)
    (hN : p.gifFiles.length ≠ 0)
    (hres : env.gifOpenResult (toCharArray (p.gifFiles.getD p.currentGifIndex "") 256) =
      none) :
    openNextGif env now p =
      { p with
        gifOpen := false
        events := p.events ++ (if p.gifOpen = true then [GifEvent.close p.session] else []) ++
          [GifEvent.openTry p.currentGifIndex
            (toCharArray (p.gifFiles.getD p.currentGifIndex "") 256) false]
        currentGifIndex := (p.currentGifIndex + 1) % p.gifFiles.length } := by
  unfold openNextGif
  simp only [hN, if_false]
  cases hopen : p.gifOpen
  · simp only [Bool.false_eq_true, if_false, hres, List.append_nil, hopen]
  · simp only [if_true, hres]

/-- C13. Successful rotation in `openNextGif`: on a non-empty asset list, when opening the
asset at the cursor succeeds with canvas `gifW` x `gifH`, the call first closes the session that
was open, if any, and then opens the asset, so that exactly one session is open afterwards;
`gifOffsetX = (width - gifW) / 2` and `gifOffsetY = (height - gifH) / 2` with the division
truncating toward zero; every panel cell is 0; `gifStartTime` is the current time; and the
cursor is `(cursor + 1) mod N`. -/
theorem openNextGif_success (env : GifEnv) (now : Nat) (p : Player) (gifW gifH : Int)
    (hN : p.gifFiles.length ≠ 0)
    (hres : env.gifOpenResult (toCharArray (p.gifFiles.getD p.currentGifIndex "") 256) =
      some (gifW, gifH))
    (hinv : sessionsOpen p.events = if p.gifOpen = true then 1 else 0) :
    (openNextGif env now p).gifOpen = true ∧
    sessionsOpen (openNextGif env now p).events = 1 ∧
    (openNextGif env now p).events =
      p.events ++ (if p.gifOpen = true then [GifEvent.close p.session] else []) ++
        [GifEvent.openTry p.currentGifIndex
          (toCharArray (p.gifFiles.getD p.currentGifIndex "") 256) true, GifEvent.clear] ∧
    (openNextGif env now p).session =
      toCharArray (p.gifFiles.getD p.currentGifIndex "") 256 ∧
    (openNextGif env now p).gifOffsetX = (p.matrix.w - gifW).tdiv 2 ∧
    (openNextGif env now p).gifOffsetY = (p.matrix.h - gifH).tdiv 2 ∧
    (∀ cx cy : Int, (openNextGif env now p).matrix.cells cx cy = 0) ∧
    (openNextGif env now p).matrix.w = p.matrix.w ∧
    (openNextGif env now p).matrix.h = p.matrix.h ∧
    (openNextGif env now p).gifStartTime = now ∧
    (openNextGif env now p).currentGifIndex = (p.currentGifIndex + 1) % p.gifFiles.length ∧
    (openNextGif env now p).gifFiles = p.gifFiles := by
  rw [openNextGif_ok_eq env now p gifW gifH hN hres]
  refine ⟨rfl, ?_, rfl, rfl, rfl, rfl, fun _ _ => rfl, rfl, rfl, rfl, rfl, rfl⟩
  simp only [sessionsOpen_append, hinv]
  cases p.gifOpen <;> simp [sessionStep]

theorem openNextGif_success_witness :
    ((openNextGif (canvasEnv 7 5 9001) 9001 playingA).gifOpen = true ∧
    sessionsOpen (openNextGif (canvasEnv 7 5 9001) 9001 playingA).events = 1 ∧
    (openNextGif (canvasEnv 7 5 9001) 9001 playingA).events =
      playingA.events ++
        (if playingA.gifOpen = true then [GifEvent.close playingA.session] else []) ++
        [GifEvent.openTry playingA.currentGifIndex
          (toCharArray (playingA.gifFiles.getD playingA.currentGifIndex "") 256) true,
          GifEvent.clear] ∧
    (openNextGif (canvasEnv 7 5 9001) 9001 playingA).session =
      toCharArray (playingA.gifFiles.getD playingA.currentGifIndex "") 256 ∧
    (openNextGif (canvasEnv 7 5 9001) 9001 playingA).gifOffsetX =
      (playingA.matrix.w - 7).tdiv 2 ∧
    (openNextGif (canvasEnv 7 5 9001) 9001 playingA).gifOffsetY =
      (playingA.matrix.h - 5).tdiv 2 ∧
    (∀ cx cy : Int, (openNextGif (canvasEnv 7 5 9001) 9001 playingA).matrix.cells cx cy = 0) ∧
    (openNextGif (canvasEnv 7 5 9001) 9001 playingA).matrix.w = playingA.matrix.w ∧
    (openNextGif (canvasEnv 7 5 9001) 9001 playingA).matrix.h = playingA.matrix.h ∧
    (openNextGif (canvasEnv 7 5 9001) 9001 playingA).gifStartTime = 9001 ∧
    (openNextGif (canvasEnv 7 5 9001) 9001 playingA).currentGifIndex =
      (playingA.currentGifIndex + 1) % playingA.gifFiles.length ∧
    (openNextGif (canvasEnv 7 5 9001) 9001 playingA).gifFiles = playingA.gifFiles) ∧
    (openNextGif (canvasEnv 7 5 9001) 9001 playingA).gifOffsetX = -1 ∧
    (openNextGif (canvasEnv 7 5 9001) 9001 playingA).gifOffsetY = -1 ∧
    (openNextGif (canvasEnv 7 5 9001) 9001 playingA).session = "/gifs/b.gif" :=
  ⟨openNextGif_success (canvasEnv 7 5 9001) 9001 playingA 7 5 (by decide) rfl (by decide),
    by decide, by decide, by decide⟩

/-- C14. Failed rotation in `openNextGif` and `drawFrame`: on a non-empty asset list, when
opening the asset at the cursor fails, `openNextGif` leaves no session open (it has closed the
one that was open, if any), leaves the panel, the centering offsets and `gifStartTime` as they
were, and still moves the cursor to `(cursor + 1) mod N`; and a `drawFrame` tick that calls
`openNextGif` in this situation (no session open, or the play time elapsed) ends there: it
plays no frame and returns 100. -/
theorem openNextGif_failure (env : GifEnv) (now : Nat) (p : Player)
    (hN : p.gifFiles.length ≠ 0)
    (hres : env.gifOpenResult (toCharArray (p.gifFiles.getD p.currentGifIndex "") 256) =
      none)
    (hinv : sessionsOpen p.events = if p.gifOpen = true then 1 else 0)
    (hcall : p.gifOpen = false ∨
      ((env.millisCheck : Int) - (p.gifStartTime : Int)) % 4294967296 > 8000) :
    (openNextGif env now p).gifOpen = false ∧
    sessionsOpen (openNextGif env now p).events = 0 ∧
    (openNextGif env now p).events =
      p.events ++ (if p.gifOpen = true then [GifEvent.close p.session] else []) ++
        [GifEvent.openTry p.currentGifIndex
          (toCharArray (p.gifFiles.getD p.currentGifIndex "") 256) false] ∧
    (openNextGif env now p).matrix = p.matrix ∧
    (openNextGif env now p).gifOffsetX = p.gifOffsetX ∧
    (openNextGif env now p).gifOffsetY = p.gifOffsetY ∧
    (openNextGif env now p).gifStartTime = p.gifStartTime ∧
    (openNextGif env now p).currentGifIndex = (p.currentGifIndex + 1) % p.gifFiles.length ∧
    (openNextGif env now p).gifFiles = p.gifFiles ∧
    drawFrame env p = (openNextGif env now p, 100) := by
  have hq := openNextGif_fail_eq env now p hN hres
  refine ⟨by rw [hq], ?_, by rw [hq], by rw [hq], by rw [hq], by rw [hq], by rw [hq],
    by rw [hq], by rw [hq], ?_⟩
  · rw [hq]
    simp only [sessionsOpen_append, hinv]
    cases p.gifOpen <;> simp [sessionStep]
  · unfold drawFrame
    simp only [hN, if_false]
    cases hopen : p.gifOpen
    · simp only [Bool.not_false, if_true]
      rw [openNextGif_fail_eq env env.millisOpen1 p hN hres, hq]
      simp
    · have ht : ((env.millisCheck : Int) - (p.gifStartTime : Int)) % 4294967296 > 8000 := by
        rcases hcall with h | h
        · rw [hopen] at h; cases h
        · exact h
      simp only [Bool.not_true, Bool.false_eq_true, if_false, GIF_PLAY_TIME, ht, if_true,
        hopen]
      rw [openNextGif_fail_eq env env.millisOpen2 p hN hres, hq]
      simp

theorem openNextGif_failure_witness :
    (openNextGif (brokenEnv 9001) 9001 playingA).gifOpen = false ∧
    sessionsOpen (openNextGif (brokenEnv 9001) 9001 playingA).events = 0 ∧
    (openNextGif (brokenEnv 9001) 9001 playingA).events =
      playingA.events ++
        (if playingA.gifOpen = true then [GifEvent.close playingA.session] else []) ++
        [GifEvent.openTry playingA.currentGifIndex
          (toCharArray (playingA.gifFiles.getD playingA.currentGifIndex "") 256) false] ∧
    (openNextGif (brokenEnv 9001) 9001 playingA).matrix = playingA.matrix ∧
    (openNextGif (brokenEnv 9001) 9001 playingA).gifOffsetX = playingA.gifOffsetX ∧
    (openNextGif (brokenEnv 9001) 9001 playingA).gifOffsetY = playingA.gifOffsetY ∧
    (openNextGif (brokenEnv 9001) 9001 playingA).gifStartTime = playingA.gifStartTime ∧
    (openNextGif (brokenEnv 9001) 9001 playingA).currentGifIndex =
      (playingA.currentGifIndex + 1) % playingA.gifFiles.length ∧
    (openNextGif (brokenEnv 9001) 9001 playingA).gifFiles = playingA.gifFiles ∧
    drawFrame (brokenEnv 9001) playingA = (openNextGif (brokenEnv 9001) 9001 playingA, 100) :=
  openNextGif_failure (brokenEnv 9001) 9001 playingA (by decide) rfl (by decide)
    (Or.inr (by decide))


/-! ## The inter-frame delay of `drawFrame` -/

/-- A call of `openNextGif` only adds events, and plays no frame. -/
theorem openNextGif_events (env : GifEnv) (now : Nat) (p : Player) :
    ∃ added : List GifEvent, (openNextGif env now p).events = p.events ++ added ∧
      GifEvent.play ∉ added := by
  by_cases hN : p.gifFiles.length = 0
  · refine ⟨[], ?_, by simp⟩
    unfold openNextGif
    simp only [hN, if_true, List.append_nil]
  · cases hres : env.gifOpenResult (toCharArray (p.gifFiles.getD p.currentGifIndex "") 256) with
    | none =>
      rw [openNextGif_fail_eq env now p hN hres]
      refine ⟨_, List.append_assoc _ _ _, ?_⟩
      cases p.gifOpen <;> simp
    | some wh =>
      obtain ⟨gifW, gifH⟩ := wh
      rw [openNextGif_ok_eq env now p gifW gifH hN hres]
      refine ⟨_, List.append_assoc _ _ _, ?_⟩
      cases p.gifOpen <;> simp

theorem playOne_delay (env : GifEnv) (q : Player) :
    (playOne env q).2 = (max env.frameDelay 10).toNat := by
  unfold playOne
  by_cases h : env.frameDelay > 10
  · simp only [h, if_true]
    rw [max_eq_left (le_of_lt h)]
  · simp only [h, if_false]
    rw [max_eq_right (not_lt.mp h)]
    rfl

theorem playOne_events (env : GifEnv) (q : Player) :
    ∃ added : List GifEvent, (playOne env q).1.events = q.events ++ added := by
  unfold playOne
  by_cases h : env.playFrame = 0
  · exact ⟨[GifEvent.play, GifEvent.reset], by simp [h]⟩
  · exact ⟨[GifEvent.play], by simp [h]⟩

/-- C15. Inter-frame delay of the GIF `drawFrame`: whatever the state and the outside world,
the returned value is at least 10; the tick only adds events, and when it plays a frame the
returned value is `max(d, 10)` for the delay `d` reported by the decoder, so that 0, a negative
delay and any delay up to 10 give 10. -/
theorem drawFrame_delay_floor (env : GifEnv) (p : Player) :
    10 ≤ (drawFrame env p).2 ∧
    (∃ added : List GifEvent, (drawFrame env p).1.events = p.events ++ added ∧
      (GifEvent.play ∈ added → (drawFrame env p).2 = (max env.frameDelay 10).toNat)) ∧
    (∀ q : Player, (playOne env q).2 = (max env.frameDelay 10).toNat ∧
      GifEvent.play ∈ (playOne env q).1.events) ∧
    ((max env.frameDelay 10).toNat = 10 ↔ env.frameDelay ≤ 10) := by
  have hfloor : 10 ≤ (max env.frameDelay 10).toNat := by
    have := le_max_right env.frameDelay 10
    omega
  have htail : ∀ (q : Player) (n1 : List GifEvent), q.events = p.events ++ n1 →
      GifEvent.play ∉ n1 →
      10 ≤ (if (!q.gifOpen) = true then (q, 100) else playOne env q).2 ∧
      ∃ added : List GifEvent,
        (if (!q.gifOpen) = true then (q, 100) else playOne env q).1.events = p.events ++ added ∧
        (GifEvent.play ∈ added →
          (if (!q.gifOpen) = true then (q, 100) else playOne env q).2 =
            (max env.frameDelay 10).toNat) := by
    intro q n1 hq hn1
    by_cases hopen : (!q.gifOpen) = true
    · rw [if_pos hopen]
      exact ⟨show (10 : Nat) ≤ 100 by decide, n1, hq, fun h => absurd h hn1⟩
    · rw [if_neg hopen]
      obtain ⟨a, ha⟩ := playOne_events env q
      refine ⟨by rw [playOne_delay]; exact hfloor, n1 ++ a, by rw [ha, hq, List.append_assoc],
        fun _ => playOne_delay env q⟩
  refine ⟨?_, ?_, ?_, ?_⟩
  · unfold drawFrame
    by_cases hN : p.gifFiles.length = 0
    · simp only [hN, if_true]; exact (show (10 : Nat) ≤ 1000 by decide)
    simp only [hN, if_false]
    obtain ⟨n1, e1, f1⟩ : ∃ n1, (if (!p.gifOpen) = true then openNextGif env env.millisOpen1 p
        else p).events = p.events ++ n1 ∧ GifEvent.play ∉ n1 := by
      by_cases ho : (!p.gifOpen) = true
      · rw [if_pos ho]; exact openNextGif_events env _ p
      · rw [if_neg ho]; exact ⟨[], by simp, by simp⟩
    generalize (if (!p.gifOpen) = true then openNextGif env env.millisOpen1 p else p) = p1
      at e1 ⊢
    by_cases h1 : (!p1.gifOpen) = true
    · rw [if_pos h1]; exact (show (10 : Nat) ≤ 100 by decide)
    rw [if_neg h1]
    obtain ⟨n2, e2, f2⟩ : ∃ n2, (if ((env.millisCheck : Int) - (p1.gifStartTime : Int)) %
        4294967296 > GIF_PLAY_TIME then openNextGif env env.millisOpen2 p1 else p1).events =
        p.events ++ n2 ∧ GifEvent.play ∉ n2 := by
      by_cases ht : ((env.millisCheck : Int) - (p1.gifStartTime : Int)) % 4294967296 >
          GIF_PLAY_TIME
      · rw [if_pos ht]
        obtain ⟨a, ha, hb⟩ := openNextGif_events env env.millisOpen2 p1
        exact ⟨n1 ++ a, by rw [ha, e1, List.append_assoc], by simp [f1, hb]⟩
      · rw [if_neg ht]; exact ⟨n1, e1, f1⟩
    exact (htail _ n2 e2 f2).1
  · unfold drawFrame
    by_cases hN : p.gifFiles.length = 0
    · simp only [hN, if_true]
      exact ⟨[GifEvent.clear], rfl, by simp⟩
    simp only [hN, if_false]
    obtain ⟨n1, e1, f1⟩ : ∃ n1, (if (!p.gifOpen) = true then openNextGif env env.millisOpen1 p
        else p).events = p.events ++ n1 ∧ GifEvent.play ∉ n1 := by
      by_cases ho : (!p.gifOpen) = true
      · rw [if_pos ho]; exact openNextGif_events env _ p
      · rw [if_neg ho]; exact ⟨[], by simp, by simp⟩
    generalize (if (!p.gifOpen) = true then openNextGif env env.millisOpen1 p else p) = p1
      at e1 ⊢
    by_cases h1 : (!p1.gifOpen) = true
    · rw [if_pos h1]
      exact ⟨n1, e1, fun h => absurd h f1⟩
    rw [if_neg h1]
    obtain ⟨n2, e2, f2⟩ : ∃ n2, (if ((env.millisCheck : Int) - (p1.gifStartTime : Int)) %
        4294967296 > GIF_PLAY_TIME then openNextGif env env.millisOpen2 p1 else p1).events =
        p.events ++ n2 ∧ GifEvent.play ∉ n2 := by
      by_cases ht : ((env.millisCheck : Int) - (p1.gifStartTime : Int)) % 4294967296 >
          GIF_PLAY_TIME
      · rw [if_pos ht]
        obtain ⟨a, ha, hb⟩ := openNextGif_events env env.millisOpen2 p1
        exact ⟨n1 ++ a, by rw [ha, e1, List.append_assoc], by simp [f1, hb]⟩
      · rw [if_neg ht]; exact ⟨n1, e1, f1⟩
    exact (htail _ n2 e2 f2).2
  · intro q
    refine ⟨playOne_delay env q, ?_⟩
    unfold playOne
    by_cases h : env.playFrame = 0 <;> simp [h]
  · constructor
    · intro h
      by_contra hc
      have : max env.frameDelay 10 = env.frameDelay := max_eq_left (by omega)
      rw [this] at h
      omega
    · intro h
      rw [max_eq_right h]
      rfl


/-! ## The error pattern of `showError` -/

theorem errorRow_cells (W off y : Nat) (n : Nat) :
    ∀ (x : Nat) (l : Leds) (k : Nat),
      (PatternCamera.errorRow W off y n x l).cells k =
        if y * W + x ≤ k ∧ k < y * W + x + n then errorColor off (k - y * W) y
        else l.cells k := by
  induction n with
  | zero =>
    intro x l k
    rw [if_neg (by omega)]
    rfl
  | succ n ih =>
    intro x l k
    have hstore : (if (x + y + off) % 8 < 4 then l.store (y * W + x) { r := 50, g := 0, b := 0 }
        else l.store (y * W + x) CRGB.Black) = l.store (y * W + x) (errorColor off x y) := by
      unfold errorColor
      split_ifs <;> rfl
    rw [PatternCamera.errorRow, hstore, ih]
    generalize y * W = b
    by_cases hk : k = b + x
    · subst hk
      rw [if_neg (by omega), if_pos (by omega)]
      have : b + x - b = x := by omega
      simp only [Leds.store, if_true, this]
    · by_cases hin : b + (x + 1) ≤ k ∧ k < b + (x + 1) + n
      · rw [if_pos hin, if_pos (by omega)]
      · rw [if_neg hin, if_neg (by omega)]
        simp only [Leds.store, hk, if_false]

theorem errorRows_cells (W off : Nat) (n : Nat) :
    ∀ (y : Nat) (l : Leds) (k : Nat),
      (PatternCamera.errorRows W off n y l).cells k =
        if y * W ≤ k ∧ k < (y + n) * W then errorColor off (k % W) (k / W)
        else l.cells k := by
  induction n with
  | zero =>
    intro y l k
    rw [if_neg (by rw [Nat.add_zero]; omega)]
    rfl
  | succ n ih =>
    intro y l k
    rw [PatternCamera.errorRows, ih, errorRow_cells]
    have e1 : (y + 1) * W = y * W + W := by ring
    have e2 : (y + 1 + n) * W = y * W + W + n * W := by ring
    have e3 : (y + (n + 1)) * W = y * W + W + n * W := by ring
    rw [e1, e2, e3]
    by_cases hrow : y * W ≤ k ∧ k < y * W + W
    · have hW : 0 < W := by omega
      have hr : k - y * W < W := by omega
      have hk : k = (k - y * W) + y * W := by omega
      have hdiv : k / W = y := by
        rw [hk, Nat.add_mul_div_right _ _ hW, Nat.div_eq_of_lt hr, Nat.zero_add]
      have hmod : k % W = k - y * W := by
        rw [hk, Nat.add_mul_mod_self_right, Nat.mod_eq_of_lt hr]
        omega
      rw [if_neg (by omega), if_pos (by omega), if_pos (by omega), hdiv, hmod]
    · by_cases hrest : y * W + W ≤ k ∧ k < y * W + W + n * W
      · rw [if_pos hrest, if_pos (by omega)]
      · rw [if_neg hrest, if_neg (by omega), if_neg (by omega)]

/-- The panel buffer after `showError`, cell by cell. -/
theorem showError_cells (W H : Nat) (c : Camera) (x y : Nat) (hx : x < W) (hy : y < H) :
    (PatternCamera.showError W H c).leds.cells (y * W + x) =
      errorColor ((c.offset + 1) % 8) x y := by
  have hW : 0 < W := by omega
  have hlt : y * W + x < (0 + H) * W := by
    have : (y + 1) * W ≤ H * W := Nat.mul_le_mul_right W hy
    have e1 : (y + 1) * W = y * W + W := by ring
    rw [Nat.zero_add]
    omega
  show (PatternCamera.errorRows W ((c.offset + 1) % 8) H 0 c.leds).cells (y * W + x) = _
  rw [errorRows_cells, if_pos ⟨by omega, hlt⟩]
  have hdiv : (y * W + x) / W = y := by
    rw [Nat.add_comm, Nat.add_mul_div_right _ _ hW, Nat.div_eq_of_lt hx, Nat.zero_add]
  have hmod : (y * W + x) % W = x := by
    rw [Nat.add_comm, Nat.add_mul_mod_self_right, Nat.mod_eq_of_lt hx]
  rw [hdiv, hmod]

theorem showError_iterate_offset (W H : Nat) (c : Camera) (k : Nat) :
    ((PatternCamera.showError W H)^[k + 1] c).offset = (c.offset + (k + 1)) % 8 := by
  induction k with
  | zero => rfl
  | succ k ih =>
    rw [Function.iterate_succ_apply']
    show ((((PatternCamera.showError W H)^[k + 1] c).offset) + 1) % 8 = _
    rw [ih]
    omega

/-- C16. Error pattern of `showError`: a call moves the phase from `p` to `(p + 1) mod 8` and
sets every panel cell `(x, y)`, `x < VPANEL_W`, `y < VPANEL_H`, to `CRGB(50, 0, 0)` when
`(x + y + p') mod 8 < 4` and to black otherwise, whatever the cell held; the cells beyond the
panel are left alone; two states with the same phase get the same image; and eight further
calls reproduce the image. -/
theorem showError_pattern (VPANEL_W VPANEL_H : Nat) (c : Camera) :
    (PatternCamera.showError VPANEL_W VPANEL_H c).offset = (c.offset + 1) % 8 ∧
    (∀ x y : Nat, x < VPANEL_W → y < VPANEL_H →
      (PatternCamera.showError VPANEL_W VPANEL_H c).leds.cells (y * VPANEL_W + x) =
        if (x + y + (c.offset + 1) % 8) % 8 < 4 then { r := 50, g := 0, b := 0 }
        else CRGB.Black) ∧
    (∀ k : Nat, VPANEL_H * VPANEL_W ≤ k →
      (PatternCamera.showError VPANEL_W VPANEL_H c).leds.cells k = c.leds.cells k) ∧
    (∀ c1 : Camera, c1.offset = c.offset → ∀ x y : Nat, x < VPANEL_W → y < VPANEL_H →
      (PatternCamera.showError VPANEL_W VPANEL_H c1).leds.cells (y * VPANEL_W + x) =
        (PatternCamera.showError VPANEL_W VPANEL_H c).leds.cells (y * VPANEL_W + x)) ∧
    (∀ x y : Nat, x < VPANEL_W → y < VPANEL_H →
      ((PatternCamera.showError VPANEL_W VPANEL_H)^[8]
          (PatternCamera.showError VPANEL_W VPANEL_H c)).leds.cells (y * VPANEL_W + x) =
        (PatternCamera.showError VPANEL_W VPANEL_H c).leds.cells (y * VPANEL_W + x)) := by
  refine ⟨rfl, ?_, ?_, ?_, ?_⟩
  · intro x y hx hy
    rw [showError_cells VPANEL_W VPANEL_H c x y hx hy]
    rfl
  · intro k hk
    show (PatternCamera.errorRows VPANEL_W ((c.offset + 1) % 8) VPANEL_H 0 c.leds).cells k = _
    rw [errorRows_cells, if_neg]
    rintro ⟨_, h2⟩
    rw [Nat.zero_add] at h2
    omega
  · intro c1 h1 x y hx hy
    rw [showError_cells VPANEL_W VPANEL_H c1 x y hx hy,
      showError_cells VPANEL_W VPANEL_H c x y hx hy, h1]
  · intro x y hx hy
    rw [Function.iterate_succ_apply', showError_cells VPANEL_W VPANEL_H _ x y hx hy,
      showError_cells VPANEL_W VPANEL_H c x y hx hy, showError_iterate_offset]
    have hoff : (PatternCamera.showError VPANEL_W VPANEL_H c).offset = (c.offset + 1) % 8 := rfl
    rw [hoff]
    congr 1
    omega


/-! ## Scratch-buffer safety in `GIFDraw` -/

/-- C17. Scratch-buffer safety of `GIFDraw`: on a scan line of width `iWidth ≤ 320`, whatever
the pixels, the transparent index, the offsets and the path taken, the call ends without a
fault, and so does the loop of the transparent path started on any row: no store into `usTemp`
at an index of 320 or more (`Fault.scratch`), no load from `usTemp` of an entry that the current
run did not store (`Fault.stale`), no load from the scan-line buffer at an index of `iWidth` or
more (`Fault.pixels`), and the loops terminate (`Fault.fuel`). -/
theorem GIFDraw_scratch_safety (gifOffsetX gifOffsetY : Int) (usTemp0 : Nat → Nat)
    (m : Matrix) (p : GIFDRAW) (hw : p.iWidth ≤ 320) :
    (∃ r : DrawResult, GIFDraw gifOffsetX gifOffsetY usTemp0 m p = .ok r) ∧
    (∀ y : Int, ∃ r : Run,
      transparentLoop p gifOffsetX y p.iWidth.toNat
        { s := 0, x := 0, iCount := 0, usTemp := usTemp0, lookups := 0, m := m } = .ok r) := by
  constructor
  · by_cases hrow : p.iY + p.y + gifOffsetY < 0 ∨ p.iY + p.y + gifOffsetY ≥ m.h
    · refine ⟨{ m := m, p := p, lookups := 0 }, ?_⟩
      unfold GIFDraw
      simp only [hrow, if_true]
    have hvis : 0 ≤ p.iY + p.y + gifOffsetY ∧ p.iY + p.y + gifOffsetY < m.h := by omega
    by_cases hD : p.ucDisposalMethod = 2
    · obtain ⟨r, h1, _⟩ := GIFDraw_dispose_eq gifOffsetX gifOffsetY usTemp0 m p hD hvis
      exact ⟨r, h1⟩
    by_cases hT : p.ucHasTransparency = 0
    · exact ⟨_, GIFDraw_opaque_eq gifOffsetX gifOffsetY usTemp0 m p hT hD hvis⟩
    · obtain ⟨r, h1, _⟩ :=
        GIFDraw_transparent_eq gifOffsetX gifOffsetY usTemp0 m p hT hD hw hvis
      exact ⟨r, h1⟩
  · intro y
    obtain ⟨r, h1, _⟩ := transparentLoop_spec p gifOffsetX y hw p.iWidth.toNat
      { s := 0, x := 0, iCount := 0, usTemp := usTemp0, lookups := 0, m := m } rfl rfl
      (by simp only; omega) (by simp only; omega)
    exact ⟨r, h1⟩

theorem GIFDraw_scratch_safety_witness :
    (∃ r : DrawResult, GIFDraw (-1) 0 (fun _ => 0) panel4x2 (line6 1 0) = .ok r) ∧
    (∀ y : Int, ∃ r : Run,
      transparentLoop (line6 1 0) (-1) y (line6 1 0).iWidth.toNat
        { s := 0, x := 0, iCount := 0, usTemp := fun _ => 0, lookups := 0, m := panel4x2 } =
          .ok r) :=
  GIFDraw_scratch_safety (-1) 0 (fun _ => 0) panel4x2 (line6 1 0) (by decide)

set_option maxRecDepth 100000 in
/-- The bound 320 is needed: on a line of 321 opaque pixels the first run stores its 321st
palette entry at index 320 of `usTemp`, past the end of the scratch line. -/
theorem GIFDraw_scratch_overflow :
    (match GIFDraw 0 0 (fun _ => 0) panel4x2 line321 with
      | .error e => some e
      | .ok _ => none) = some Fault.scratch := by
  decide


/-! ## The cursor invariant of the GIF player -/

theorem keepsAssets_refl (p : Player) : keepsAssets p p := ⟨rfl, rfl, Or.inl rfl⟩

theorem keepsAssets_trans (p q r : Player) (h1 : keepsAssets p q) (h2 : keepsAssets q r) :
    keepsAssets p r := by
  obtain ⟨a1, a2, a3⟩ := h1
  obtain ⟨b1, b2, b3⟩ := h2
  refine ⟨by rw [b1, a1], by rw [b2, a2], ?_⟩
  rcases b3 with h | ⟨h, h'⟩
  · rw [h]; exact a3
  · rw [a1] at h h'
    exact Or.inr ⟨h, h'⟩

theorem openNextGif_empty (env : GifEnv) (now : Nat) (p : Player) (h : p.gifFiles = []) :
    openNextGif env now p = p := by
  unfold openNextGif
  simp [h]

theorem openNextGif_keeps (env : GifEnv) (now : Nat) (p : Player) :
    keepsAssets p (openNextGif env now p) := by
  by_cases hN : p.gifFiles.length = 0
  · rw [openNextGif_empty env now p (List.length_eq_zero.mp hN)]
    exact keepsAssets_refl p
  · have hne : p.gifFiles ≠ [] := fun h => hN (by rw [h]; rfl)
    cases hres : env.gifOpenResult (toCharArray (p.gifFiles.getD p.currentGifIndex "") 256) with
    | none =>
      rw [openNextGif_fail_eq env now p hN hres]
      exact ⟨rfl, rfl, Or.inr ⟨hne, Nat.mod_lt _ (Nat.pos_of_ne_zero hN)⟩⟩
    | some wh =>
      obtain ⟨gifW, gifH⟩ := wh
      rw [openNextGif_ok_eq env now p gifW gifH hN hres]
      exact ⟨rfl, rfl, Or.inr ⟨hne, Nat.mod_lt _ (Nat.pos_of_ne_zero hN)⟩⟩

theorem stop_keeps (p : Player) : keepsAssets p (stop p) := by
  unfold stop
  split_ifs
  · exact ⟨rfl, rfl, Or.inl rfl⟩
  · exact keepsAssets_refl p

theorem playOne_keeps (env : GifEnv) (p : Player) : keepsAssets p (playOne env p).1 := by
  unfold playOne
  by_cases h : env.playFrame = 0
  · simp only [h, if_true]
    exact ⟨rfl, rfl, Or.inl rfl⟩
  · simp only [h, if_false]
    exact ⟨rfl, rfl, Or.inl rfl⟩

theorem drawFrame_keeps (env : GifEnv) (p : Player) : keepsAssets p (drawFrame env p).1 := by
  unfold drawFrame
  by_cases hN : p.gifFiles.length = 0
  · simp only [hN, if_true]
    exact ⟨rfl, rfl, Or.inl rfl⟩
  simp only [hN, if_false]
  have h1 : keepsAssets p (if (!p.gifOpen) = true then openNextGif env env.millisOpen1 p
      else p) := by
    by_cases ho : (!p.gifOpen) = true
    · rw [if_pos ho]; exact openNextGif_keeps env _ p
    · rw [if_neg ho]; exact keepsAssets_refl p
  generalize (if (!p.gifOpen) = true then openNextGif env env.millisOpen1 p else p) = p1
    at h1 ⊢
  by_cases hc1 : (!p1.gifOpen) = true
  · rw [if_pos hc1]; exact h1
  rw [if_neg hc1]
  have h2 : keepsAssets p (if ((env.millisCheck : Int) - (p1.gifStartTime : Int)) %
      4294967296 > GIF_PLAY_TIME then openNextGif env env.millisOpen2 p1 else p1) := by
    by_cases ht : ((env.millisCheck : Int) - (p1.gifStartTime : Int)) % 4294967296 >
        GIF_PLAY_TIME
    · rw [if_pos ht]; exact keepsAssets_trans _ _ _ h1 (openNextGif_keeps env _ p1)
    · rw [if_neg ht]; exact h1
  generalize (if ((env.millisCheck : Int) - (p1.gifStartTime : Int)) % 4294967296 >
    GIF_PLAY_TIME then openNextGif env env.millisOpen2 p1 else p1) = p2 at h2 ⊢
  by_cases hc2 : (!p2.gifOpen) = true
  · rw [if_pos hc2]; exact h2
  · rw [if_neg hc2]; exact keepsAssets_trans _ _ _ h2 (playOne_keeps env p2)

theorem cursorInv_keeps (p q : Player) (hp : cursorInv p) (h : keepsAssets p q) :
    cursorInv q := by
  obtain ⟨a1, a2, a3⟩ := hp
  obtain ⟨b1, b2, b3⟩ := h
  refine ⟨?_, ?_, ?_⟩
  · intro hs
    rw [b1]
    exact a1 (by rw [← b2]; exact hs)
  · intro he
    rw [b1] at he
    rcases b3 with h | ⟨h, _⟩
    · rw [h]; exact a2 he
    · exact absurd he h
  · intro hne
    rw [b1] at hne ⊢
    rcases b3 with h | ⟨_, h⟩
    · rw [h]; exact a3 hne
    · exact h

theorem cursorInv_start (env : GifEnv) (p : Player) (hp : cursorInv p) :
    cursorInv (start env p) := by
  unfold start
  apply cursorInv_keeps _ _ _ (openNextGif_keeps env _ _)
  by_cases hs : p.gifFilesScanned = true
  · simp only [hs, Bool.not_true, Bool.false_eq_true, if_false]
    exact hp
  · have hs' : p.gifFilesScanned = false := by simpa using hs
    have h0 : p.currentGifIndex = 0 := hp.2.1 (hp.1 hs')
    simp only [hs', Bool.not_false, if_true]
    refine ⟨fun h => (by cases h), fun _ => h0, ?_⟩
    intro hne
    show p.currentGifIndex < _
    rw [h0]
    exact List.length_pos.mpr hne

theorem cursorInv_applyCall (call : GifCall) (p : Player) (hp : cursorInv p) :
    cursorInv (applyCall call p) := by
  cases call with
  | start env => exact cursorInv_start env p hp
  | stop => exact cursorInv_keeps _ _ hp (stop_keeps p)
  | openNextGif env now => exact cursorInv_keeps _ _ hp (openNextGif_keeps env now p)
  | drawFrame env => exact cursorInv_keeps _ _ hp (drawFrame_keeps env p)

theorem cursorInv_applyCalls (calls : List GifCall) :
    ∀ p : Player, cursorInv p → cursorInv (applyCalls calls p) := by
  induction calls with
  | nil => intro p hp; exact hp
  | cons call rest ih => intro p hp; exact ih _ (cursorInv_applyCall call p hp)

/-- C18. Cursor invariant of the GIF player: in every state reached from the initial state by
any sequence of `start`, `stop`, `openNextGif` and `drawFrame` calls, either the asset list is
empty, and then `openNextGif` returns at line 246 with the state unchanged and `drawFrame`
returns 1000 after clearing the panel (no element is looked up, no remainder by the length is
taken), or the cursor is below the length of the list, so that `gifFiles[currentGifIndex]` is an
element of the list; and once the scan is done no call changes the list. -/
theorem cursor_invariant (m : Matrix) (calls : List GifCall) :
    ((applyCalls calls (initialPlayer m)).gifFiles = [] ∨
      (applyCalls calls (initialPlayer m)).currentGifIndex <
        (applyCalls calls (initialPlayer m)).gifFiles.length) ∧
    ((applyCalls calls (initialPlayer m)).gifFiles = [] →
      ∀ (env : GifEnv) (now : Nat),
        openNextGif env now (applyCalls calls (initialPlayer m)) =
          applyCalls calls (initialPlayer m) ∧
        drawFrame env (applyCalls calls (initialPlayer m)) =
          ({ applyCalls calls (initialPlayer m) with
             matrix := (applyCalls calls (initialPlayer m)).matrix.fillScreen 0
             events := (applyCalls calls (initialPlayer m)).events ++ [GifEvent.clear] }, 1000)) ∧
    ((applyCalls calls (initialPlayer m)).gifFiles ≠ [] →
      ∃ path : String,
        (applyCalls calls (initialPlayer m)).gifFiles[
          (applyCalls calls (initialPlayer m)).currentGifIndex]? = some path ∧
        (applyCalls calls (initialPlayer m)).gifFiles.getD
          (applyCalls calls (initialPlayer m)).currentGifIndex "" = path) ∧
    ((applyCalls calls (initialPlayer m)).gifFilesScanned = true →
      ∀ call : GifCall,
        (applyCall call (applyCalls calls (initialPlayer m))).gifFiles =
          (applyCalls calls (initialPlayer m)).gifFiles) := by
  have hinit : cursorInv (initialPlayer m) :=
    ⟨fun _ => rfl, fun _ => rfl, fun h => absurd rfl h⟩
  have hinv := cursorInv_applyCalls calls (initialPlayer m) hinit
  generalize applyCalls calls (initialPlayer m) = p at hinv ⊢
  obtain ⟨a1, a2, a3⟩ := hinv
  refine ⟨?_, ?_, ?_, ?_⟩
  · by_cases he : p.gifFiles = []
    · exact Or.inl he
    · exact Or.inr (a3 he)
  · intro he env now
    refine ⟨openNextGif_empty env now p he, ?_⟩
    unfold drawFrame
    simp [he]
  · intro hne
    have hlt := a3 hne
    refine ⟨p.gifFiles[p.currentGifIndex], List.getElem?_eq_getElem hlt, ?_⟩
    rw [List.getD_eq_getElem?_getD, List.getElem?_eq_getElem hlt]
    rfl
  · intro hs call
    cases call with
    | start env =>
      show (start env p).gifFiles = _
      unfold start
      simp only [hs, Bool.not_true, Bool.false_eq_true, if_false]
      exact (openNextGif_keeps env _ p).1
    | stop => exact (stop_keeps p).1
    | openNextGif env now => exact (openNextGif_keeps env now p).1
    | drawFrame env => exact (drawFrame_keeps env p).1

end DemoPannello
